import Mathlib

-- Batteries marks the `Rat` arithmetic irreducible; make it unfold in this
-- file so that concrete runs of the generators can be evaluated by `decide`.
attribute [local semireducible] Rat.mul Rat.add Rat.sub Rat.inv Rat.ofScientific

/-!
Shallow embedding of the Pi_Qualytics sample-data generators
(`Sampledata.py`, the defect variant, and
`scripts/generate_pure_sample_data.py`, the pure/clean variant).

The process-global `random` state is modelled as a stream of rational
draws in `[0,1)`, indexed by the number of primitive calls made so far.
Each primitive of the `random` module (`random()`, `uniform`, `randint`,
`choice`) consumes exactly one draw.  Python floats are modelled as
rationals, `f"{x:.pf}"` as fixed-point rendering with round-half-to-even,
`datetime` values as day numbers relative to 1970-01-01, and
`strftime("%Y-%m-%d")` through the standard civil-from-days conversion.
-/

/-- A stream of pseudo-random draws, one rational per primitive call. -/
abbrev RNG := ℕ → ℚ

/-- Well-formed stream: every draw lies in `[0,1)`, as `random.random()` does. -/
def WFRNG (g : RNG) : Prop := ∀ k, 0 ≤ g k ∧ g k < 1

/-- `random.uniform a b` using the draw at position `k`. -/
def uniformAt (g : RNG) (k : ℕ) (a b : ℚ) : ℚ := a + (b - a) * g k

/-- `random.randint a b` (both ends inclusive) using the draw at position `k`. -/
def randintAt (g : RNG) (k : ℕ) (a b : ℤ) : ℤ := a + ⌊g k * ((b - a + 1 : ℤ) : ℚ)⌋

/-- `random.choice l` using the draw at position `k`, with an explicit
default for the (never exercised) empty-list case. -/
def chooseD {α : Type} (g : RNG) (k : ℕ) (l : List α) (d : α) : α :=
  l.getD (⌊g k * (l.length : ℚ)⌋).toNat d

/-! ### Decimal digits and string rendering -/

def digitChar : ℕ → Char
  | 0 => '0' | 1 => '1' | 2 => '2' | 3 => '3' | 4 => '4'
  | 5 => '5' | 6 => '6' | 7 => '7' | 8 => '8' | _ => '9'

/-- Fuel-driven digit expansion; the fuel is an upper bound on the argument,
so the result is fuel-independent (`digitsGo_of_le`). -/
def digitsGo : ℕ → ℕ → List Char
  | _, 0 => []
  | 0, _ + 1 => []
  | f + 1, m + 1 => digitsGo f ((m + 1) / 10) ++ [digitChar ((m + 1) % 10)]

/-- The base-10 digits of `m`, most significant first (empty for `0`). -/
def digitsAux (m : ℕ) : List Char := digitsGo m m

/-- Decimal rendering of a natural number, i.e. Python `str(n)` for `n ≥ 0`. -/
def natRepr (m : ℕ) : String := if m = 0 then "0" else ⟨digitsAux m⟩

/-- `str.zfill(w)`: left-pad with `'0'` up to width `w`. -/
def zfill (w : ℕ) (s : String) : String :=
  ⟨List.replicate (w - s.data.length) '0' ++ s.data⟩

def digitVal (c : Char) : ℕ := c.toNat - 48

def isDigitChar (c : Char) : Bool := decide (48 ≤ c.toNat) && decide (c.toNat ≤ 57)

/-- Value of a most-significant-first digit list. -/
def parseDigits (l : List Char) : ℕ := l.foldl (fun a c => a * 10 + digitVal c) 0

/-- Split a character list at the first `'.'` (the split exists iff a dot occurs). -/
def splitDot : List Char → Option (List Char × List Char)
  | [] => none
  | c :: r => if c = '.' then some ([], r)
              else (splitDot r).map (fun p => (c :: p.1, p.2))

/-- Value of an unsigned decimal token such as `123` or `12.05`. -/
def parseDecPos (l : List Char) : ℚ :=
  match splitDot l with
  | some (ip, fp) => (parseDigits ip : ℚ) + (parseDigits fp : ℚ) / (10 : ℚ) ^ fp.length
  | none => (parseDigits l : ℚ)

/-- Model of Python `float(s)` on the decimal strings this program produces. -/
def parseDec (s : String) : ℚ :=
  match s.data with
  | [] => 0
  | c :: r => if c = '-' then -(parseDecPos r) else parseDecPos (c :: r)

/-- Round to the nearest integer, ties to even (the rounding of `f"{x:.pf}"`). -/
def roundHalfEven (x : ℚ) : ℤ :=
  if x - ⌊x⌋ < 1/2 then ⌊x⌋
  else if 1/2 < x - ⌊x⌋ then ⌊x⌋ + 1
  else if ⌊x⌋ % 2 = 0 then ⌊x⌋ else ⌊x⌋ + 1

/-- `f"{x:.pf}"`: fixed-point rendering with `p` fractional digits.
A leading sign appears exactly when `x < 0` (Python prints `-0.00` for
tiny negative values). -/
def renderFixed (p : ℕ) (x : ℚ) : String :=
  let n := (roundHalfEven (x * (10 : ℚ) ^ p)).natAbs
  (if x < 0 then "-" else "") ++ natRepr (n / 10 ^ p) ++ "." ++ zfill p (natRepr (n % 10 ^ p))

/-! ### Calendar arithmetic (`datetime` + `timedelta`, `strftime("%Y-%m-%d")`) -/

/-- Civil date `(y, m, d)` of day number `z` (days since 1970-01-01),
proleptic Gregorian. -/
def civilFromDays (z0 : ℤ) : ℤ × ℤ × ℤ :=
  let z := z0 + 719468
  let era := z / 146097
  let doe := z % 146097
  let yoe := (doe - doe / 1460 + doe / 36524 - doe / 146096) / 365
  let doy := doe - (365 * yoe + yoe / 4 - yoe / 100)
  let mp := (5 * doy + 2) / 153
  let d := doy - (153 * mp + 2) / 5 + 1
  let m := mp + (if mp < 10 then 3 else -9)
  (yoe + era * 400 + (if m ≤ 2 then 1 else 0), m, d)

/-- Day number (days since 1970-01-01) of the civil date `(y, m, d)`. -/
def daysFromCivil (y m d : ℤ) : ℤ :=
  let y2 := y - (if m ≤ 2 then 1 else 0)
  let era := y2 / 400
  let yoe := y2 % 400
  let doy := (153 * (m + (if 2 < m then -3 else 9)) + 2) / 5 + d - 1
  let doe := yoe * 365 + yoe / 4 - yoe / 100 + doy
  era * 146097 + doe - 719468

/-- `date.strftime("%Y-%m-%d")` of the day number `z`. -/
def renderDate (z : ℤ) : String :=
  let c := civilFromDays z
  zfill 4 (natRepr c.1.toNat) ++ "-" ++ zfill 2 (natRepr c.2.1.toNat) ++ "-" ++
    zfill 2 (natRepr c.2.2.toNat)

/-- `datetime(1970, 1, 1)`. -/
def EPOCH1970 : ℤ := daysFromCivil 1970 1 1

/-- `TODAY = datetime(2026, 1, 22)`, shared by both variants. -/
def TODAY : ℤ := daysFromCivil 2026 1 22

/-- Python `int(x)`: truncation toward zero. -/
def intTrunc (q : ℚ) : ℤ := if q < 0 then -⌊-q⌋ else ⌊q⌋

/-! ### Domain vocabularies (identical in both source files) -/

def FIRST_NAMES : List String :=
  ["John", "Jane", "Michael", "Sarah", "David", "Emma", "Robert", "Lisa", "William", "Mary",
   "James", "Patricia", "Richard", "Jennifer", "Thomas", "Linda", "Charles", "Barbara"]

def LAST_NAMES : List String :=
  ["Smith", "Johnson", "Williams", "Brown", "Jones", "Garcia", "Miller", "Davis", "Rodriguez",
   "Martinez", "Hernandez", "Lopez", "Gonzalez", "Wilson", "Anderson", "Thomas", "Taylor", "Moore"]

def COUNTRIES : List String :=
  ["USA", "UK", "Canada", "Australia", "Germany", "France", "Spain", "Italy", "Japan", "India"]

def KYC_STATUSES : List String := ["VERIFIED", "PENDING", "REJECTED", "EXPIRED", "NOT_STARTED"]

def ACCOUNT_TYPES : List String := ["SAVINGS", "CHECKING", "CREDIT", "INVESTMENT", "LOAN"]

def TRANSACTION_TYPES : List String :=
  ["DEPOSIT", "WITHDRAWAL", "TRANSFER", "PAYMENT", "FEE", "INTEREST"]

def CURRENCIES : List String := ["USD", "EUR", "GBP", "JPY", "CAD", "AUD", "CHF", "CNY"]

def EMAIL_DOMAINS : List String := ["gmail.com", "yahoo.com", "outlook.com", "company.com"]

def ACCOUNT_STATUSES : List String := ["ACTIVE", "CLOSED", "SUSPENDED", "PENDING"]

def TXN_STATUSES : List String := ["COMPLETED", "PENDING", "FAILED", "REVERSED"]

def TXN_CHANNELS : List String := ["Online", "ATM", "Branch", "Mobile"]

def FX_SOURCES : List String := ["CENTRAL_BANK", "MARKET", "MANUAL"]

/-- The `base_rates` dict of `generate_fx_rates`, in insertion order. -/
def BASE_RATES : List (String × ℚ) :=
  [("EUR", 1.10), ("GBP", 1.27), ("JPY", 0.0091), ("CAD", 0.74),
   ("AUD", 0.66), ("CHF", 1.12), ("CNY", 0.14)]

/-- `s.lower()` -/
def lowerStr (s : String) : String := ⟨s.data.map Char.toLower⟩

/-! ### Records (the Python dicts, one structure per entity) -/

structure Customer where
  customer_id : String
  first_name : String
  last_name : String
  email : String
  phone : String
  date_of_birth : String
  country : String
  kyc_status : String
  created_date : String
  last_updated : String
deriving DecidableEq

structure Account where
  account_id : String
  customer_id : String
  account_type : String
  balance : String
  currency : String
  status : String
  opened_date : String
  last_transaction_date : String
deriving DecidableEq

structure Transaction where
  transaction_id : String
  account_id : String
  transaction_type : String
  amount : String
  currency : String
  transaction_date : String
  description : String
  status : String
deriving DecidableEq

structure DailyBalance where
  balance_id : String
  account_id : String
  balance_date : String
  opening_balance : String
  closing_balance : String
  currency : String
deriving DecidableEq

structure FxRate where
  rate_id : String
  from_currency : String
  to_currency : String
  exchange_rate : String
  rate_date : String
  source : String
deriving DecidableEq

def defCustomer : Customer := ⟨"", "", "", "", "", "", "", "", "", ""⟩
def defAccount : Account := ⟨"", "", "", "", "", "", "", ""⟩
def defTransaction : Transaction := ⟨"", "", "", "", "", "", "", ""⟩
def defBalance : DailyBalance := ⟨"", "", "", "", "", ""⟩

/-! ### Daily balances (the `generate_daily_balances` bodies of the two files
are character-identical, so both variants share this embedding) -/

/-- The inner `for day in range(days)` loop: one record per day for a fixed
account, threading the float `base_balance` and the global record counter
`n` (`len(balances)`); exactly one draw (the `uniform(-1000, 1000)`) per day. -/
def balancesDays (g : RNG) (aid cur : String) :
    ℕ → ℚ → ℕ → ℕ → ℕ → List DailyBalance
  | 0, _, _, _, _ => []
  | dl + 1, base, day, n, k =>
    let delta := uniformAt g k (-1000) 1000
    { balance_id := "BAL" ++ zfill 10 (natRepr (n + 1))
      account_id := aid
      balance_date := renderDate (TODAY - day)
      opening_balance := renderFixed 2 base
      closing_balance := renderFixed 2 (base + delta)
      currency := cur } :: balancesDays g aid cur dl (base + delta) (day + 1) (n + 1) (k + 1)

/-- The outer `for account in accounts` loop; `base_balance = float(account["balance"])`. -/
def balancesLoop (g : RNG) : List Account → ℕ → ℕ → ℕ → List DailyBalance
  | [], _, _, _ => []
  | a :: rest, days, n, k =>
    balancesDays g a.account_id a.currency days (parseDec a.balance) 0 n k ++
      balancesLoop g rest days (n + days) (k + days)

/-! ### Serialization (`write_csv`, identical in both files).
A record reaches the writer as a mapping from field name to value; the
`csv.DictWriter` picks values in the caller-given column order, minimally
quotes them, joins with `","` and terminates each row with `"\r\n"`. -/

def csvQuote (s : String) : String :=
  if s.data.any (fun c => c = ',' || c = '"' || c = '\n' || c = '\r') then
    "\"" ++ ⟨s.data.foldr (fun c acc => if c = '"' then '"' :: '"' :: acc else c :: acc) []⟩ ++ "\""
  else s

def csvLine (fields : List String) : String :=
  String.intercalate "," (fields.map csvQuote) ++ "\r\n"

/-- `DictWriter._dict_to_list`: values in the caller-specified column order
(`restval` is empty for an absent key). -/
def rowOf (fieldnames : List String) (r : List (String × String)) : List String :=
  fieldnames.map (fun f => (((r.find? (fun p => p.1 == f)).map (fun p => p.2)).getD ""))

/-- `write_csv`: `writeheader()` then `writerows(data)`, as the text written. -/
def write_csv (fieldnames : List String) (data : List (List (String × String))) : String :=
  data.foldl (fun acc r => acc ++ csvLine (rowOf fieldnames r)) (csvLine fieldnames)

/-- Specification-side shape of the rows part of a CSV file: one line per
record, in insertion order. -/
def rowsText (fieldnames : List String) : List (List (String × String)) → String
  | [] => ""
  | r :: rest => csvLine (rowOf fieldnames r) ++ rowsText fieldnames rest

/-! ### The pure/clean variant (`scripts/generate_pure_sample_data.py`).
Every constructor consumes a statically known number of draws, so the
stream position is threaded by fixed offsets (noted per definition). -/

namespace GeneratePure

def OUTPUT_DIR : String := "pure_sample_data"

/-- `generate_email` (clean): 1 draw (the domain choice). -/
def generate_email (g : RNG) (first_name last_name : String) (k : ℕ) : String :=
  lowerStr first_name ++ "." ++ lowerStr last_name ++ "@" ++ chooseD g k EMAIL_DOMAINS ""

/-- `generate_phone` (clean): 3 draws. -/
def generate_phone (g : RNG) (k : ℕ) : String :=
  "+1-" ++ natRepr (randintAt g k 200 999).toNat ++
  "-" ++ natRepr (randintAt g (k + 1) 200 999).toNat ++
  "-" ++ natRepr (randintAt g (k + 2) 1000 9999).toNat

/-- `generate_date` (clean): 1 draw (the offset `randint(-days_range, days_range)`). -/
def generate_date (g : RNG) (base_date days_range : ℤ) (k : ℕ) : String :=
  renderDate (base_date + randintAt g k (-days_range) days_range)

/-- One iteration of the customer loop: 10 draws. -/
def mkCustomer (g : RNG) (i k : ℕ) : Customer :=
  let first_name := chooseD g k FIRST_NAMES ""
  let last_name := chooseD g (k + 1) LAST_NAMES ""
  { customer_id := "CUST" ++ zfill 6 (natRepr (i + 1))
    first_name := first_name
    last_name := last_name
    email := generate_email g first_name last_name (k + 2)
    phone := generate_phone g (k + 3)
    date_of_birth := generate_date g EPOCH1970 (365 * 40) (k + 6)
    country := chooseD g (k + 7) COUNTRIES ""
    kyc_status := chooseD g (k + 8) KYC_STATUSES ""
    created_date := generate_date g TODAY 365 (k + 9)
    last_updated := renderDate TODAY }

def customersLoop (g : RNG) : ℕ → ℕ → ℕ → List Customer
  | 0, _, _ => []
  | n + 1, i, k => mkCustomer g i k :: customersLoop g n (i + 1) (k + 10)

/-- `generate_customers(count)` (clean). -/
def generate_customers (g : RNG) (count : ℤ) (k : ℕ) : List Customer :=
  customersLoop g count.toNat 0 k

/-- One iteration of the account loop: 7 draws. -/
def mkAccount (g : RNG) (customers : List Customer) (i k : ℕ) : Account :=
  let c := chooseD g k customers defCustomer
  { account_id := "ACC" ++ zfill 8 (natRepr (i + 1))
    customer_id := c.customer_id
    account_type := chooseD g (k + 1) ACCOUNT_TYPES ""
    balance := renderFixed 2 (uniformAt g (k + 2) 0 100000)
    currency := chooseD g (k + 3) CURRENCIES ""
    status := chooseD g (k + 4) ACCOUNT_STATUSES ""
    opened_date := generate_date g TODAY 730 (k + 5)
    last_transaction_date := generate_date g TODAY 30 (k + 6) }

def accountsLoop (g : RNG) (customers : List Customer) : ℕ → ℕ → ℕ → List Account
  | 0, _, _ => []
  | n + 1, i, k => mkAccount g customers i k :: accountsLoop g customers n (i + 1) (k + 7)

/-- `generate_accounts(customers, avg_accounts_per_customer)` (clean);
`count = int(len(customers) * avg_accounts_per_customer)`. -/
def generate_accounts (g : RNG) (customers : List Customer)
    (avg_accounts_per_customer : ℚ) (k : ℕ) : List Account :=
  accountsLoop g customers
    (intTrunc ((customers.length : ℚ) * avg_accounts_per_customer)).toNat 0 k

/-- One iteration of the transaction loop: 7 draws. -/
def mkTransaction (g : RNG) (accounts : List Account) (i k : ℕ) : Transaction :=
  let a := chooseD g k accounts defAccount
  { transaction_id := "TXN" ++ zfill 10 (natRepr (i + 1))
    account_id := a.account_id
    transaction_type := chooseD g (k + 1) TRANSACTION_TYPES ""
    amount := renderFixed 2 (uniformAt g (k + 2) (-10000) 10000)
    currency := a.currency
    transaction_date := generate_date g TODAY 90 (k + 3)
    description := chooseD g (k + 4) TRANSACTION_TYPES "" ++ " - " ++ chooseD g (k + 5) TXN_CHANNELS ""
    status := chooseD g (k + 6) TXN_STATUSES "" }

def transactionsLoop (g : RNG) (accounts : List Account) : ℕ → ℕ → ℕ → List Transaction
  | 0, _, _ => []
  | n + 1, i, k => mkTransaction g accounts i k :: transactionsLoop g accounts n (i + 1) (k + 7)

/-- `generate_transactions(accounts, transactions_per_account)` (clean);
`count = len(accounts) * transactions_per_account`. -/
def generate_transactions (g : RNG) (accounts : List Account)
    (transactions_per_account : ℤ) (k : ℕ) : List Transaction :=
  transactionsLoop g accounts (((accounts.length : ℤ) * transactions_per_account)).toNat 0 k

/-- `generate_daily_balances(accounts, days)` (clean; body identical to the
defect variant's, see `balancesLoop`). -/
def generate_daily_balances (g : RNG) (accounts : List Account) (days : ℤ) (k : ℕ) :
    List DailyBalance :=
  balancesLoop g accounts days.toNat 0 k

/-- One `(currency, base_rate)` iteration of the FX inner loop: 2 draws. -/
def mkFxRate (g : RNG) (cur : String) (base : ℚ) (day n k : ℕ) : FxRate :=
  { rate_id := "FX" ++ zfill 8 (natRepr (n + 1))
    from_currency := "USD"
    to_currency := cur
    exchange_rate := renderFixed 6 (base * uniformAt g k 0.95 1.05)
    rate_date := renderDate (TODAY - day)
    source := chooseD g (k + 1) FX_SOURCES "" }

def fxDayLoop (g : RNG) : List (String × ℚ) → ℕ → ℕ → ℕ → List FxRate
  | [], _, _, _ => []
  | (c, b) :: rest, day, n, k => mkFxRate g c b day n k :: fxDayLoop g rest day (n + 1) (k + 2)

def fxLoop (g : RNG) : ℕ → ℕ → ℕ → ℕ → List FxRate
  | 0, _, _, _ => []
  | dl + 1, day, n, k => fxDayLoop g BASE_RATES day n k ++ fxLoop g dl (day + 1) (n + 7) (k + 14)

/-- `generate_fx_rates(days)` (clean). -/
def generate_fx_rates (g : RNG) (days : ℤ) (k : ℕ) : List FxRate :=
  fxLoop g days.toNat 0 0 k

end GeneratePure

/-! ### The defect variant (`Sampledata.py`).
The customer constructor and the FX constructor consume a branch-dependent
number of draws, so those return the next stream position alongside the
value; everything else is static. -/

namespace Sampledata

def OUTPUT_DIR : String := "sample_data"

/-- `generate_email(first_name, last_name, add_issue)`.  Python's
`add_issue and random.random() < 0.15` short-circuits: no draw is made on
the check when `add_issue` is false. -/
def generate_email (g : RNG) (first_name last_name : String) (add_issue : Bool) (k : ℕ) :
    String × ℕ :=
  if add_issue then
    if g k < (0.15 : ℚ) then
      (chooseD g (k + 1)
        [lowerStr first_name ++ "@",
         lowerStr first_name ++ "." ++ lowerStr last_name,
         lowerStr first_name ++ "@invalid",
         ""] "", k + 2)
    else
      (lowerStr first_name ++ "." ++ lowerStr last_name ++ "@" ++
        chooseD g (k + 1) EMAIL_DOMAINS "", k + 2)
  else
    (lowerStr first_name ++ "." ++ lowerStr last_name ++ "@" ++
      chooseD g k EMAIL_DOMAINS "", k + 1)

/-- `generate_phone(add_issue)`. -/
def generate_phone (g : RNG) (add_issue : Bool) (k : ℕ) : String × ℕ :=
  if add_issue then
    if g k < (0.10 : ℚ) then
      (chooseD g (k + 1) ["123", "12345678901234567890", "ABC-DEF-GHIJ", ""] "", k + 2)
    else
      ("+1-" ++ natRepr (randintAt g (k + 1) 200 999).toNat ++
       "-" ++ natRepr (randintAt g (k + 2) 200 999).toNat ++
       "-" ++ natRepr (randintAt g (k + 3) 1000 9999).toNat, k + 4)
  else
    ("+1-" ++ natRepr (randintAt g k 200 999).toNat ++
     "-" ++ natRepr (randintAt g (k + 1) 200 999).toNat ++
     "-" ++ natRepr (randintAt g (k + 2) 1000 9999).toNat, k + 3)

/-- `generate_date(base_date, days_range, add_issue)`. -/
def generate_date (g : RNG) (base_date days_range : ℤ) (add_issue : Bool) (k : ℕ) :
    String × ℕ :=
  if add_issue then
    if g k < (0.05 : ℚ) then
      (chooseD g (k + 1) ["2026-13-45", "NOT_A_DATE", "2099-12-31", ""] "", k + 2)
    else
      (renderDate (base_date + randintAt g (k + 1) (-days_range) days_range), k + 2)
  else
    (renderDate (base_date + randintAt g k (-days_range) days_range), k + 1)

/-- One iteration of the customer loop.  Draw order: first/last name,
`add_issues` check, the three suppression checks (id, first, last), then
email, phone, date of birth, country (check, then choice only if kept),
KYC status, created date. -/
def mkCustomer (g : RNG) (i k : ℕ) : Customer × ℕ :=
  let first_name := chooseD g k FIRST_NAMES ""
  let last_name := chooseD g (k + 1) LAST_NAMES ""
  let add_issues := decide (g (k + 2) < (0.20 : ℚ))
  let em := generate_email g first_name last_name add_issues (k + 6)
  let ph := generate_phone g add_issues em.2
  let dob := generate_date g EPOCH1970 (365 * 40) add_issues ph.2
  let hasCountry := decide ((0.03 : ℚ) < g dob.2)
  let kK := if hasCountry then dob.2 + 2 else dob.2 + 1
  ({ customer_id := if (0.01 : ℚ) < g (k + 3) then "CUST" ++ zfill 6 (natRepr (i + 1)) else ""
     first_name := if (0.05 : ℚ) < g (k + 4) then first_name else ""
     last_name := if (0.05 : ℚ) < g (k + 5) then last_name else ""
     email := em.1
     phone := ph.1
     date_of_birth := dob.1
     country := if hasCountry then chooseD g (dob.2 + 1) COUNTRIES "" else ""
     kyc_status := chooseD g kK KYC_STATUSES ""
     created_date := (generate_date g TODAY 365 false (kK + 1)).1
     last_updated := renderDate TODAY }, kK + 2)

def customersLoop (g : RNG) : ℕ → ℕ → ℕ → List Customer × ℕ
  | 0, _, k => ([], k)
  | n + 1, i, k =>
    let c := mkCustomer g i k
    let rest := customersLoop g n (i + 1) c.2
    (c.1 :: rest.1, rest.2)

/-- `generate_customers(count)` (defect variant). -/
def generate_customers (g : RNG) (count : ℤ) (k : ℕ) : List Customer × ℕ :=
  customersLoop g count.toNat 0 k

/-- One iteration of the account loop: 9 draws (the orphan check, then the
orphan `randint` or the customer choice, then the id check and the six
remaining fields). -/
def mkAccount (g : RNG) (customers : List Customer) (i k : ℕ) : Account :=
  let customer_id :=
    if g k < (0.05 : ℚ) then "CUST" ++ natRepr (randintAt g (k + 1) 900000 999999).toNat
    else (chooseD g (k + 1) customers defCustomer).customer_id
  { account_id := if (0.01 : ℚ) < g (k + 2) then "ACC" ++ zfill 8 (natRepr (i + 1)) else ""
    customer_id := customer_id
    account_type := chooseD g (k + 3) ACCOUNT_TYPES ""
    balance := renderFixed 2 (uniformAt g (k + 4) 0 100000)
    currency := chooseD g (k + 5) CURRENCIES ""
    status := chooseD g (k + 6) ACCOUNT_STATUSES ""
    opened_date := (generate_date g TODAY 730 false (k + 7)).1
    last_transaction_date := (generate_date g TODAY 30 false (k + 8)).1 }

def accountsLoop (g : RNG) (customers : List Customer) : ℕ → ℕ → ℕ → List Account
  | 0, _, _ => []
  | n + 1, i, k => mkAccount g customers i k :: accountsLoop g customers n (i + 1) (k + 9)

/-- `generate_accounts(customers, avg_accounts_per_customer)` (defect variant). -/
def generate_accounts (g : RNG) (customers : List Customer)
    (avg_accounts_per_customer : ℚ) (k : ℕ) : List Account :=
  accountsLoop g customers
    (intTrunc ((customers.length : ℚ) * avg_accounts_per_customer)).toNat 0 k

/-- One iteration of the transaction loop: 8 draws. -/
def mkTransaction (g : RNG) (accounts : List Account) (i k : ℕ) : Transaction :=
  let a := chooseD g k accounts defAccount
  { transaction_id := if (0.01 : ℚ) < g (k + 1) then "TXN" ++ zfill 10 (natRepr (i + 1)) else ""
    account_id := a.account_id
    transaction_type := chooseD g (k + 2) TRANSACTION_TYPES ""
    amount := renderFixed 2 (uniformAt g (k + 3) (-10000) 10000)
    currency := a.currency
    transaction_date := (generate_date g TODAY 90 false (k + 4)).1
    description := chooseD g (k + 5) TRANSACTION_TYPES "" ++ " - " ++ chooseD g (k + 6) TXN_CHANNELS ""
    status := chooseD g (k + 7) TXN_STATUSES "" }

def transactionsLoop (g : RNG) (accounts : List Account) : ℕ → ℕ → ℕ → List Transaction
  | 0, _, _ => []
  | n + 1, i, k => mkTransaction g accounts i k :: transactionsLoop g accounts n (i + 1) (k + 8)

/-- `generate_transactions(accounts, transactions_per_account)` (defect variant). -/
def generate_transactions (g : RNG) (accounts : List Account)
    (transactions_per_account : ℤ) (k : ℕ) : List Transaction :=
  transactionsLoop g accounts (((accounts.length : ℤ) * transactions_per_account)).toNat 0 k

/-- `generate_daily_balances(accounts, days)` (defect variant; body identical
to the clean variant's, see `balancesLoop`). -/
def generate_daily_balances (g : RNG) (accounts : List Account) (days : ℤ) (k : ℕ) :
    List DailyBalance :=
  balancesLoop g accounts days.toNat 0 k

/-- One `(currency, base_rate)` iteration of the FX inner loop: 2 draws plus
one more for the bad-rate choice when the 5% branch is taken. -/
def mkFxRate (g : RNG) (cur : String) (base : ℚ) (day n k : ℕ) : FxRate × ℕ :=
  let rate := base * uniformAt g k 0.95 1.05
  let bad := decide (g (k + 1) < (0.05 : ℚ))
  ({ rate_id := "FX" ++ zfill 8 (natRepr (n + 1))
     from_currency := "USD"
     to_currency := cur
     exchange_rate := if bad then chooseD g (k + 2) ["", "-1.0", "999999.0"] "" else renderFixed 6 rate
     rate_date := renderDate (TODAY - day)
     source := chooseD g (if bad then k + 3 else k + 2) FX_SOURCES "" },
   if bad then k + 4 else k + 3)

def fxDayLoop (g : RNG) : List (String × ℚ) → ℕ → ℕ → ℕ → List FxRate × ℕ
  | [], _, _, k => ([], k)
  | (c, b) :: rest, day, n, k =>
    let fx := mkFxRate g c b day n k
    let more := fxDayLoop g rest day (n + 1) fx.2
    (fx.1 :: more.1, more.2)

def fxLoop (g : RNG) : ℕ → ℕ → ℕ → ℕ → List FxRate × ℕ
  | 0, _, _, k => ([], k)
  | dl + 1, day, n, k =>
    let d := fxDayLoop g BASE_RATES day n k
    let rest := fxLoop g dl (day + 1) (n + 7) d.2
    (d.1 ++ rest.1, rest.2)

/-- `generate_fx_rates(days)` (defect variant). -/
def generate_fx_rates (g : RNG) (days : ℤ) (k : ℕ) : List FxRate × ℕ :=
  fxLoop g days.toNat 0 0 k

end Sampledata

/-! ### The defect variant with all defect-injection probabilities set to zero.
Modelled from the spec: "Pure/clean variant: a generation mode with all
defect-injection probabilities set to zero" — the spec's reading of
`Sampledata.py` with the literals 0.20, 0.15, 0.10, 0.05, 0.03 and 0.01
replaced by 0, used to compare the two variants (claim about extensional
equality of the variants).  Only the customer pipeline and the three field
generators are needed for that comparison. -/

namespace Sampledata0

/-- Modelled from the spec: `Sampledata.generate_email` with its defect
probability 0.15 set to 0. -/
def generate_email (g : RNG) (first_name last_name : String) (add_issue : Bool) (k : ℕ) :
    String × ℕ :=
  if add_issue then
    if g k < (0 : ℚ) then
      (chooseD g (k + 1)
        [lowerStr first_name ++ "@",
         lowerStr first_name ++ "." ++ lowerStr last_name,
         lowerStr first_name ++ "@invalid",
         ""] "", k + 2)
    else
      (lowerStr first_name ++ "." ++ lowerStr last_name ++ "@" ++
        chooseD g (k + 1) EMAIL_DOMAINS "", k + 2)
  else
    (lowerStr first_name ++ "." ++ lowerStr last_name ++ "@" ++
      chooseD g k EMAIL_DOMAINS "", k + 1)

/-- Modelled from the spec: `Sampledata.generate_phone` with its defect
probability 0.10 set to 0. -/
def generate_phone (g : RNG) (add_issue : Bool) (k : ℕ) : String × ℕ :=
  if add_issue then
    if g k < (0 : ℚ) then
      (chooseD g (k + 1) ["123", "12345678901234567890", "ABC-DEF-GHIJ", ""] "", k + 2)
    else
      ("+1-" ++ natRepr (randintAt g (k + 1) 200 999).toNat ++
       "-" ++ natRepr (randintAt g (k + 2) 200 999).toNat ++
       "-" ++ natRepr (randintAt g (k + 3) 1000 9999).toNat, k + 4)
  else
    ("+1-" ++ natRepr (randintAt g k 200 999).toNat ++
     "-" ++ natRepr (randintAt g (k + 1) 200 999).toNat ++
     "-" ++ natRepr (randintAt g (k + 2) 1000 9999).toNat, k + 3)

/-- Modelled from the spec: `Sampledata.generate_date` with its defect
probability 0.05 set to 0. -/
def generate_date (g : RNG) (base_date days_range : ℤ) (add_issue : Bool) (k : ℕ) :
    String × ℕ :=
  if add_issue then
    if g k < (0 : ℚ) then
      (chooseD g (k + 1) ["2026-13-45", "NOT_A_DATE", "2099-12-31", ""] "", k + 2)
    else
      (renderDate (base_date + randintAt g (k + 1) (-days_range) days_range), k + 2)
  else
    (renderDate (base_date + randintAt g k (-days_range) days_range), k + 1)

/-- Modelled from the spec: one iteration of `Sampledata.generate_customers`
with the probabilities 0.20, 0.01, 0.05, 0.03 set to 0. -/
def mkCustomer (g : RNG) (i k : ℕ) : Customer × ℕ :=
  let first_name := chooseD g k FIRST_NAMES ""
  let last_name := chooseD g (k + 1) LAST_NAMES ""
  let add_issues := decide (g (k + 2) < (0 : ℚ))
  let em := generate_email g first_name last_name add_issues (k + 6)
  let ph := generate_phone g add_issues em.2
  let dob := generate_date g EPOCH1970 (365 * 40) add_issues ph.2
  let hasCountry := decide ((0 : ℚ) < g dob.2)
  let kK := if hasCountry then dob.2 + 2 else dob.2 + 1
  ({ customer_id := if (0 : ℚ) < g (k + 3) then "CUST" ++ zfill 6 (natRepr (i + 1)) else ""
     first_name := if (0 : ℚ) < g (k + 4) then first_name else ""
     last_name := if (0 : ℚ) < g (k + 5) then last_name else ""
     email := em.1
     phone := ph.1
     date_of_birth := dob.1
     country := if hasCountry then chooseD g (dob.2 + 1) COUNTRIES "" else ""
     kyc_status := chooseD g kK KYC_STATUSES ""
     created_date := (generate_date g TODAY 365 false (kK + 1)).1
     last_updated := renderDate TODAY }, kK + 2)

def customersLoop (g : RNG) : ℕ → ℕ → ℕ → List Customer × ℕ
  | 0, _, k => ([], k)
  | n + 1, i, k =>
    let c := mkCustomer g i k
    let rest := customersLoop g n (i + 1) c.2
    (c.1 :: rest.1, rest.2)

/-- Modelled from the spec: `Sampledata.generate_customers` with all
defect-injection probabilities set to zero. -/
def generate_customers (g : RNG) (count : ℤ) (k : ℕ) : List Customer × ℕ :=
  customersLoop g count.toNat 0 k

end Sampledata0

/-! ### Format checkers and other specification-side definitions -/

/-- `YYYY-MM-DD` with a plausible month `01..12` and day `01..31`. -/
def isValidDateStr (s : String) : Bool :=
  match s.data with
  | [y1, y2, y3, y4, h1, m1, m2, h2, d1, d2] =>
    isDigitChar y1 && isDigitChar y2 && isDigitChar y3 && isDigitChar y4 &&
    h1 == '-' && h2 == '-' &&
    isDigitChar m1 && isDigitChar m2 && isDigitChar d1 && isDigitChar d2 &&
    decide (1 ≤ parseDigits [m1, m2]) && decide (parseDigits [m1, m2] ≤ 12) &&
    decide (1 ≤ parseDigits [d1, d2]) && decide (parseDigits [d1, d2] ≤ 31)
  | _ => false

/-- `+1-NNN-NNN-NNNN`. -/
def phoneShape (s : String) : Bool :=
  match s.data with
  | [p, o, h1, a1, a2, a3, h2, b1, b2, b3, h3, c1, c2, c3, c4] =>
    p == '+' && o == '1' && h1 == '-' && h2 == '-' && h3 == '-' &&
    isDigitChar a1 && isDigitChar a2 && isDigitChar a3 &&
    isDigitChar b1 && isDigitChar b2 && isDigitChar b3 &&
    isDigitChar c1 && isDigitChar c2 && isDigitChar c3 && isDigitChar c4
  | _ => false

/-- Unsigned fixed-point decimal body: digits, a dot, exactly `p` digits. -/
def fixedShapeCore (p : ℕ) (l : List Char) : Bool :=
  match splitDot l with
  | some (ip, fp) =>
    decide (ip ≠ []) && ip.all isDigitChar && decide (fp.length = p) && fp.all isDigitChar
  | none => false

/-- A fixed-point decimal string with `p` fractional digits and an optional
leading minus sign. -/
def fixedShape (p : ℕ) (s : String) : Bool :=
  if s.data.head? = some '-' then fixedShapeCore p s.data.tail else fixedShapeCore p s.data

/-- All format/reference facts claimed for one clean customer record. -/
def PureCustomerOK (c : Customer) : Prop :=
  (∃ j : ℕ, c.customer_id = "CUST" ++ zfill 6 (natRepr j)) ∧
  c.first_name ∈ FIRST_NAMES ∧ c.last_name ∈ LAST_NAMES ∧
  (∃ f ∈ FIRST_NAMES, ∃ l ∈ LAST_NAMES, ∃ d ∈ EMAIL_DOMAINS,
    c.email = lowerStr f ++ "." ++ lowerStr l ++ "@" ++ d) ∧
  phoneShape c.phone = true ∧
  isValidDateStr c.date_of_birth = true ∧
  c.country ∈ COUNTRIES ∧ c.kyc_status ∈ KYC_STATUSES ∧
  isValidDateStr c.created_date = true ∧ isValidDateStr c.last_updated = true

/-- All format/reference facts claimed for one clean account record,
relative to the supplied customer collection. -/
def PureAccountOK (customers : List Customer) (a : Account) : Prop :=
  (∃ c ∈ customers, a.customer_id = c.customer_id) ∧
  (∃ j : ℕ, a.account_id = "ACC" ++ zfill 8 (natRepr j)) ∧
  a.account_type ∈ ACCOUNT_TYPES ∧ fixedShape 2 a.balance = true ∧
  a.currency ∈ CURRENCIES ∧ a.status ∈ ACCOUNT_STATUSES ∧
  isValidDateStr a.opened_date = true ∧ isValidDateStr a.last_transaction_date = true

/-- All format/reference facts claimed for one clean transaction record,
relative to the supplied account collection. -/
def PureTransactionOK (accounts : List Account) (t : Transaction) : Prop :=
  (∃ a ∈ accounts, t.account_id = a.account_id ∧ t.currency = a.currency) ∧
  (∃ j : ℕ, t.transaction_id = "TXN" ++ zfill 10 (natRepr j)) ∧
  t.transaction_type ∈ TRANSACTION_TYPES ∧ fixedShape 2 t.amount = true ∧
  t.currency ∈ CURRENCIES ∧ isValidDateStr t.transaction_date = true ∧
  (∃ x ∈ TRANSACTION_TYPES, ∃ ch ∈ TXN_CHANNELS, t.description = x ++ " - " ++ ch) ∧
  t.status ∈ TXN_STATUSES

/-- All format/reference facts claimed for one clean daily-balance record,
relative to the supplied account collection. -/
def PureBalanceOK (accounts : List Account) (b : DailyBalance) : Prop :=
  (∃ a ∈ accounts, b.account_id = a.account_id ∧ b.currency = a.currency) ∧
  (∃ j : ℕ, b.balance_id = "BAL" ++ zfill 10 (natRepr j)) ∧
  isValidDateStr b.balance_date = true ∧
  fixedShape 2 b.opening_balance = true ∧ fixedShape 2 b.closing_balance = true ∧
  b.currency ∈ CURRENCIES

/-- All format facts claimed for one clean FX-rate record. -/
def PureFxOK (r : FxRate) : Prop :=
  (∃ j : ℕ, r.rate_id = "FX" ++ zfill 8 (natRepr j)) ∧
  r.from_currency = "USD" ∧ (∃ p ∈ BASE_RATES, r.to_currency = p.1) ∧
  fixedShape 6 r.exchange_rate = true ∧ isValidDateStr r.rate_date = true ∧
  r.source ∈ FX_SOURCES

/-- The random-walk value of a balance series started at `b` whose daily
deltas are the `uniform(-1000, 1000)` draws at positions `k, k+1, …`. -/
def walkFrom (g : RNG) (b : ℚ) (k : ℕ) : ℕ → ℚ
  | 0 => b
  | i + 1 => walkFrom g b k i + uniformAt g (k + i) (-1000) 1000

/-- Within-record draw alignment between the clean customer constructor
(10 draws) and the zero-probability defect constructor (15 draws). -/
def alignTau (r : ℕ) : ℕ := [0, 1, 6, 7, 8, 9, 10, 12, 13, 14].getD r 0

/-- Stream alignment for whole customer collections: the clean variant's
draw `10*i + r` corresponds to the zero-probability variant's `15*i + alignTau r`. -/
def alignC5 (j : ℕ) : ℕ := 15 * (j / 10) + alignTau (j % 10)

/-- The constant draw stream. -/
def constStream (q : ℚ) : RNG := fun _ => q

/-- Stream used for the orphan-collision counterexample: every check keeps
its clean branch (draw 1/2 everywhere). -/
def gHalf : RNG := constStream (1/2)

/-- Stream of zeros: takes every `< p` defect branch and picks list heads. -/
def gZero : RNG := constStream 0

/-- Stream for the date-disjointness counterexample: first draw 0 (take the
defect branch), then 3/5 (pick the third defect literal). -/
def gDateCex : RNG := fun k => if k = 0 then 0 else 3/5

/-- A stream with pairwise-distinct small draws, used to separate the two
variants on a shared stream. -/
def gRamp : RNG := fun k => ((k % 20 : ℕ) : ℚ) / 20

/-! ## Theorems -/

/-! ### Digit strings -/

theorem digitsGo_of_le : ∀ m f₁ f₂, m ≤ f₁ → m ≤ f₂ → digitsGo f₁ m = digitsGo f₂ m := by
  intro m
  induction m using Nat.strong_induction_on with
  | _ m ih =>
    intro f₁ f₂ h₁ h₂
    match m, f₁, f₂ with
    | 0, f₁, f₂ => cases f₁ <;> cases f₂ <;> rfl
    | m + 1, f₁ + 1, f₂ + 1 =>
      simp only [digitsGo]
      rw [ih ((m + 1) / 10) (by omega) f₁ f₂ (by omega) (by omega)]

theorem digitsAux_step (m : ℕ) (h : m ≠ 0) :
    digitsAux m = digitsAux (m / 10) ++ [digitChar (m % 10)] := by
  obtain ⟨m', rfl⟩ : ∃ m', m = m' + 1 := ⟨m - 1, by omega⟩
  show digitsGo (m' + 1) (m' + 1) = _
  simp only [digitsGo, digitsAux]
  rw [digitsGo_of_le ((m' + 1) / 10) m' ((m' + 1) / 10) (by omega) le_rfl]

theorem digitChar_toNat (d : ℕ) (h : d < 10) : (digitChar d).toNat = 48 + d := by
  interval_cases d <;> rfl

theorem isDigitChar_digitChar (d : ℕ) : isDigitChar (digitChar d) = true := by
  unfold digitChar
  split <;> decide

theorem digitVal_digitChar (d : ℕ) (h : d < 10) : digitVal (digitChar d) = d := by
  interval_cases d <;> rfl

theorem digitsAux_all_digits : ∀ m, ∀ c ∈ digitsAux m, isDigitChar c = true := by
  intro m
  induction m using Nat.strong_induction_on with
  | _ m ih =>
    intro c hc
    rcases Nat.eq_zero_or_pos m with h | h
    · subst h; simp [digitsAux, digitsGo] at hc
    · rw [digitsAux_step m (by omega)] at hc
      rcases List.mem_append.mp hc with h1 | h1
      · exact ih (m / 10) (by omega) c h1
      · rw [List.mem_singleton.mp h1]; exact isDigitChar_digitChar _

theorem parseDigits_snoc (l : List Char) (c : Char) :
    parseDigits (l ++ [c]) = parseDigits l * 10 + digitVal c := by
  simp [parseDigits, List.foldl_append]

theorem parseDigits_digitsAux : ∀ m, parseDigits (digitsAux m) = m := by
  intro m
  induction m using Nat.strong_induction_on with
  | _ m ih =>
    rcases Nat.eq_zero_or_pos m with h | h
    · subst h; rfl
    · rw [digitsAux_step m (by omega), parseDigits_snoc, ih (m / 10) (by omega),
        digitVal_digitChar (m % 10) (by omega)]
      omega

theorem parseDigits_cons_zero (l : List Char) : parseDigits ('0' :: l) = parseDigits l := rfl

theorem parseDigits_replicate_zero (j : ℕ) (l : List Char) :
    parseDigits (List.replicate j '0' ++ l) = parseDigits l := by
  induction j with
  | zero => rfl
  | succ j ih => rw [List.replicate_succ, List.cons_append, parseDigits_cons_zero, ih]

theorem parseDigits_natRepr (m : ℕ) : parseDigits (natRepr m).data = m := by
  by_cases h : m = 0
  · subst h; rfl
  · show parseDigits (if m = 0 then "0" else ⟨digitsAux m⟩).data = m
    rw [if_neg h]
    exact parseDigits_digitsAux m

theorem parseDigits_zfill_natRepr (w m : ℕ) : parseDigits (zfill w (natRepr m)).data = m := by
  show parseDigits (List.replicate _ '0' ++ (natRepr m).data) = m
  rw [parseDigits_replicate_zero, parseDigits_natRepr]

theorem natRepr_ne_nil (m : ℕ) : (natRepr m).data ≠ [] := by
  by_cases h : m = 0
  · subst h; decide
  · show (if m = 0 then "0" else (⟨digitsAux m⟩ : String)).data ≠ []
    rw [if_neg h, digitsAux_step m h]
    simp

theorem natRepr_all_digits (m : ℕ) : ∀ c ∈ (natRepr m).data, isDigitChar c = true := by
  by_cases h : m = 0
  · subst h; decide
  · show ∀ c ∈ (if m = 0 then "0" else (⟨digitsAux m⟩ : String)).data, _
    rw [if_neg h]
    exact digitsAux_all_digits m

theorem zfill_all_digits (w : ℕ) (s : String) (hs : ∀ c ∈ s.data, isDigitChar c = true) :
    ∀ c ∈ (zfill w s).data, isDigitChar c = true := by
  intro c hc
  rcases List.mem_append.mp hc with h1 | h1
  · rw [List.eq_of_mem_replicate h1]; decide
  · exact hs c h1

theorem digitsAux_length_le : ∀ k m, m < 10 ^ k → (digitsAux m).length ≤ k := by
  intro k
  induction k with
  | zero =>
    intro m hm
    interval_cases m
    simp [digitsAux, digitsGo]
  | succ k ih =>
    intro m hm
    rcases Nat.eq_zero_or_pos m with h | h
    · subst h; simp [digitsAux, digitsGo]
    · rw [digitsAux_step m (by omega)]
      have h10 : (10 : ℕ) ^ (k + 1) = 10 * 10 ^ k := by ring
      have := ih (m / 10) (by omega)
      simp only [List.length_append, List.length_singleton]
      omega

theorem digitsAux_length_eq : ∀ k m, 10 ^ k ≤ m → m < 10 ^ (k + 1) →
    (digitsAux m).length = k + 1 := by
  intro k
  induction k with
  | zero =>
    intro m h1 h2
    rw [digitsAux_step m (by omega)]
    have : m / 10 = 0 := by omega
    rw [this]
    rfl
  | succ k ih =>
    intro m h1 h2
    have h10 : (10 : ℕ) ^ (k + 1) = 10 * 10 ^ k := by ring
    have h10' : (10 : ℕ) ^ (k + 2) = 10 * 10 ^ (k + 1) := by ring
    have hm : m ≠ 0 := by
      have : (0 : ℕ) < 10 ^ (k + 1) := Nat.pos_pow_of_pos _ (by norm_num)
      omega
    rw [digitsAux_step m hm]
    have := ih (m / 10) (by omega) (by omega)
    simp only [List.length_append, List.length_singleton]
    omega

theorem natRepr_length_eq (k m : ℕ) (h1 : 10 ^ k ≤ m) (h2 : m < 10 ^ (k + 1)) :
    (natRepr m).data.length = k + 1 := by
  have hm : m ≠ 0 := by
    have : (0 : ℕ) < 10 ^ k := Nat.pos_pow_of_pos _ (by norm_num)
    omega
  show (if m = 0 then "0" else (⟨digitsAux m⟩ : String)).data.length = k + 1
  rw [if_neg hm]
  exact digitsAux_length_eq k m h1 h2

theorem natRepr_length_le (k m : ℕ) (h : m < 10 ^ k) (hk : k ≠ 0) :
    (natRepr m).data.length ≤ k := by
  by_cases hm : m = 0
  · subst hm
    show (("0" : String)).data.length ≤ k
    simp [String.data]
    omega
  · show (if m = 0 then "0" else (⟨digitsAux m⟩ : String)).data.length ≤ k
    rw [if_neg hm]
    exact digitsAux_length_le k m h

theorem zfill_length (w : ℕ) (s : String) :
    (zfill w s).data.length = max w s.data.length := by
  simp [zfill]
  omega

theorem zfill_data (w : ℕ) (s : String) :
    (zfill w s).data = List.replicate (w - s.data.length) '0' ++ s.data := rfl

theorem list_len_four {α : Type} {l : List α} (h : l.length = 4) :
    ∃ a b c d, l = [a, b, c, d] := by
  match l, h with
  | [a, b, c, d], _ => exact ⟨a, b, c, d, rfl⟩

theorem strData_append (s t : String) : (s ++ t).data = s.data ++ t.data := rfl

theorem isDigitChar_ne_dot {c : Char} (h : isDigitChar c = true) : c ≠ '.' := by
  intro hc
  subst hc
  exact absurd h (by decide)

theorem isDigitChar_ne_dash {c : Char} (h : isDigitChar c = true) : c ≠ '-' := by
  intro hc
  subst hc
  exact absurd h (by decide)

theorem splitDot_append (A B : List Char) (h : ∀ c ∈ A, c ≠ '.') :
    splitDot (A ++ '.' :: B) = some (A, B) := by
  induction A with
  | nil => simp [splitDot]
  | cons a A ih =>
    have ha : a ≠ '.' := h a (List.mem_cons_self a A)
    simp only [List.cons_append, splitDot, if_neg ha, List.append_eq]
    rw [ih (fun c hc => h c (List.mem_cons_of_mem a hc))]
    rfl

/-! ### Calendar bounds -/

set_option maxHeartbeats 1000000 in
/-- The civil conversion always produces a month in `1..12` and a day in `1..31`. -/
theorem civil_md_bounds (z : ℤ) :
    1 ≤ (civilFromDays z).2.1 ∧ (civilFromDays z).2.1 ≤ 12 ∧
    1 ≤ (civilFromDays z).2.2 ∧ (civilFromDays z).2.2 ≤ 31 := by
  unfold civilFromDays
  simp only []
  split <;> omega

set_option maxHeartbeats 1000000 in
/-- Any day number within ±300000 of the epoch (all dates this program can
reach) has a four-digit year. -/
theorem civil_year_bounds (z : ℤ) (h1 : -300000 ≤ z) (h2 : z ≤ 300000) :
    1000 ≤ (civilFromDays z).1 ∧ (civilFromDays z).1 ≤ 9999 := by
  unfold civilFromDays
  simp only []
  split <;> split <;> omega

theorem renderDate_valid (z : ℤ) (h1 : -300000 ≤ z) (h2 : z ≤ 300000) :
    isValidDateStr (renderDate z) = true := by
  obtain ⟨hm1, hm2, hd1, hd2⟩ := civil_md_bounds z
  obtain ⟨hy1, hy2⟩ := civil_year_bounds z h1 h2
  have hyl : (natRepr (civilFromDays z).1.toNat).data.length = 4 := by
    have := natRepr_length_eq 3 (civilFromDays z).1.toNat (by norm_num; omega) (by norm_num; omega)
    simpa using this
  have hml : (natRepr (civilFromDays z).2.1.toNat).data.length ≤ 2 :=
    natRepr_length_le 2 _ (by norm_num; omega) (by norm_num)
  have hdl : (natRepr (civilFromDays z).2.2.toNat).data.length ≤ 2 :=
    natRepr_length_le 2 _ (by norm_num; omega) (by norm_num)
  have hY : (zfill 4 (natRepr (civilFromDays z).1.toNat)).data.length = 4 := by
    rw [zfill_length]; omega
  have hM : (zfill 2 (natRepr (civilFromDays z).2.1.toNat)).data.length = 2 := by
    rw [zfill_length]; omega
  have hD : (zfill 2 (natRepr (civilFromDays z).2.2.toNat)).data.length = 2 := by
    rw [zfill_length]; omega
  obtain ⟨y1, y2, y3, y4, hYd⟩ := list_len_four hY
  obtain ⟨m1, m2, hMd⟩ := List.length_eq_two.mp hM
  obtain ⟨d1, d2, hDd⟩ := List.length_eq_two.mp hD
  have hYdig := zfill_all_digits 4 _ (natRepr_all_digits (civilFromDays z).1.toNat)
  have hMdig := zfill_all_digits 2 _ (natRepr_all_digits (civilFromDays z).2.1.toNat)
  have hDdig := zfill_all_digits 2 _ (natRepr_all_digits (civilFromDays z).2.2.toNat)
  rw [hYd] at hYdig
  rw [hMd] at hMdig
  rw [hDd] at hDdig
  have hMval : parseDigits [m1, m2] = (civilFromDays z).2.1.toNat := by
    rw [← hMd, parseDigits_zfill_natRepr]
  have hDval : parseDigits [d1, d2] = (civilFromDays z).2.2.toNat := by
    rw [← hDd, parseDigits_zfill_natRepr]
  have hdata : (renderDate z).data =
      y1 :: y2 :: y3 :: y4 :: '-' :: m1 :: m2 :: '-' :: d1 :: d2 :: [] := by
    show ((zfill 4 (natRepr (civilFromDays z).1.toNat) ++ "-" ++
      zfill 2 (natRepr (civilFromDays z).2.1.toNat) ++ "-" ++
      zfill 2 (natRepr (civilFromDays z).2.2.toNat)).data) = _
    rw [strData_append, strData_append, strData_append, strData_append, hYd, hMd, hDd]
    rfl
  unfold isValidDateStr
  rw [hdata]
  simp only [Bool.and_eq_true, decide_eq_true_eq]
  refine ⟨⟨⟨⟨⟨⟨⟨⟨⟨⟨⟨⟨⟨?_, ?_⟩, ?_⟩, ?_⟩, ?_⟩, ?_⟩, ?_⟩, ?_⟩, ?_⟩, ?_⟩, ?_⟩, ?_⟩, ?_⟩, ?_⟩
  · exact hYdig y1 (by simp)
  · exact hYdig y2 (by simp)
  · exact hYdig y3 (by simp)
  · exact hYdig y4 (by simp)
  · rfl
  · rfl
  · exact hMdig m1 (by simp)
  · exact hMdig m2 (by simp)
  · exact hDdig d1 (by simp)
  · exact hDdig d2 (by simp)
  · rw [hMval]; omega
  · rw [hMval]; omega
  · rw [hDval]; omega
  · rw [hDval]; omega

theorem renderDate_data (z : ℤ) : (renderDate z).data =
    (zfill 4 (natRepr (civilFromDays z).1.toNat)).data ++
      '-' :: ((zfill 2 (natRepr (civilFromDays z).2.1.toNat)).data ++
        '-' :: (zfill 2 (natRepr (civilFromDays z).2.2.toNat)).data) := by
  show ((zfill 4 (natRepr (civilFromDays z).1.toNat) ++ "-" ++
    zfill 2 (natRepr (civilFromDays z).2.1.toNat) ++ "-" ++
    zfill 2 (natRepr (civilFromDays z).2.2.toNat)).data) = _
  simp only [strData_append, List.append_assoc]
  rfl

theorem phoneShape_render (a b c : ℤ) (ha1 : 200 ≤ a) (ha2 : a ≤ 999) (hb1 : 200 ≤ b)
    (hb2 : b ≤ 999) (hc1 : 1000 ≤ c) (hc2 : c ≤ 9999) :
    phoneShape ("+1-" ++ natRepr a.toNat ++ "-" ++ natRepr b.toNat ++ "-" ++
      natRepr c.toNat) = true := by
  have hal : (natRepr a.toNat).data.length = 3 :=
    natRepr_length_eq 2 _ (by norm_num; omega) (by norm_num; omega)
  have hbl : (natRepr b.toNat).data.length = 3 :=
    natRepr_length_eq 2 _ (by norm_num; omega) (by norm_num; omega)
  have hcl : (natRepr c.toNat).data.length = 4 :=
    natRepr_length_eq 3 _ (by norm_num; omega) (by norm_num; omega)
  obtain ⟨a1, a2, a3, hA⟩ := List.length_eq_three.mp hal
  obtain ⟨b1, b2, b3, hB⟩ := List.length_eq_three.mp hbl
  obtain ⟨c1, c2, c3, c4, hC⟩ := list_len_four hcl
  have hAd := natRepr_all_digits a.toNat
  have hBd := natRepr_all_digits b.toNat
  have hCd := natRepr_all_digits c.toNat
  rw [hA] at hAd
  rw [hB] at hBd
  rw [hC] at hCd
  have hdata : ("+1-" ++ natRepr a.toNat ++ "-" ++ natRepr b.toNat ++ "-" ++
      natRepr c.toNat).data =
      ['+', '1', '-', a1, a2, a3, '-', b1, b2, b3, '-', c1, c2, c3, c4] := by
    simp only [strData_append, hA, hB, hC]
    rfl
  unfold phoneShape
  rw [hdata]
  simp only [Bool.and_eq_true]
  refine ⟨⟨⟨⟨⟨⟨⟨⟨⟨⟨⟨⟨⟨⟨rfl, rfl⟩, rfl⟩, rfl⟩, rfl⟩, ?_⟩, ?_⟩, ?_⟩, ?_⟩, ?_⟩, ?_⟩, ?_⟩, ?_⟩,
    ?_⟩, ?_⟩
  · exact hAd a1 (by simp)
  · exact hAd a2 (by simp)
  · exact hAd a3 (by simp)
  · exact hBd b1 (by simp)
  · exact hBd b2 (by simp)
  · exact hBd b3 (by simp)
  · exact hCd c1 (by simp)
  · exact hCd c2 (by simp)
  · exact hCd c3 (by simp)
  · exact hCd c4 (by simp)

theorem fixedShapeCore_render (p : ℕ) (hp : p ≠ 0) (q r : ℕ) (hr : r < 10 ^ p) :
    fixedShapeCore p ((natRepr q).data ++ '.' :: (zfill p (natRepr r)).data) = true := by
  unfold fixedShapeCore
  rw [splitDot_append _ _ (fun c hc => isDigitChar_ne_dot (natRepr_all_digits _ c hc))]
  have hfl : (zfill p (natRepr r)).data.length = p := by
    rw [zfill_length]
    have := natRepr_length_le p r hr hp
    omega
  simp only [Bool.and_eq_true, decide_eq_true_eq, List.all_eq_true]
  exact ⟨⟨⟨natRepr_ne_nil _, fun c hc => natRepr_all_digits _ c hc⟩, hfl⟩,
    fun c hc => zfill_all_digits _ _ (natRepr_all_digits _) c hc⟩

theorem renderFixed_data_neg (p : ℕ) (x : ℚ) (hx : x < 0) :
    (renderFixed p x).data =
      '-' :: ((natRepr ((roundHalfEven (x * (10 : ℚ) ^ p)).natAbs / 10 ^ p)).data ++
        '.' :: (zfill p (natRepr ((roundHalfEven (x * (10 : ℚ) ^ p)).natAbs % 10 ^ p))).data) := by
  show (((if x < 0 then "-" else "") ++ natRepr _ ++ "." ++ zfill p (natRepr _)).data) = _
  rw [if_pos hx]
  simp only [strData_append, List.append_assoc]
  rfl

theorem renderFixed_data_nonneg (p : ℕ) (x : ℚ) (hx : ¬x < 0) :
    (renderFixed p x).data =
      (natRepr ((roundHalfEven (x * (10 : ℚ) ^ p)).natAbs / 10 ^ p)).data ++
        '.' :: (zfill p (natRepr ((roundHalfEven (x * (10 : ℚ) ^ p)).natAbs % 10 ^ p))).data := by
  show (((if x < 0 then "-" else "") ++ natRepr _ ++ "." ++ zfill p (natRepr _)).data) = _
  rw [if_neg hx]
  simp only [strData_append, List.append_assoc]
  rfl

theorem fixedShape_renderFixed (p : ℕ) (hp : p ≠ 0) (x : ℚ) :
    fixedShape p (renderFixed p x) = true := by
  have hr : (roundHalfEven (x * (10 : ℚ) ^ p)).natAbs % 10 ^ p < 10 ^ p :=
    Nat.mod_lt _ (Nat.pos_pow_of_pos _ (by norm_num))
  unfold fixedShape
  by_cases hx : x < 0
  · rw [renderFixed_data_neg p x hx]
    simp only [List.head?_cons, List.tail_cons, if_pos]
    exact fixedShapeCore_render p hp _ _ hr
  · rw [renderFixed_data_nonneg p x hx]
    obtain ⟨hc, rest, hdq⟩ : ∃ hc rest, (natRepr ((roundHalfEven (x * (10 : ℚ) ^ p)).natAbs / 10 ^ p)).data = hc :: rest := by
      rcases hq : (natRepr ((roundHalfEven (x * (10 : ℚ) ^ p)).natAbs / 10 ^ p)).data with _ | ⟨hc, rest⟩
      · exact absurd hq (natRepr_ne_nil _)
      · exact ⟨hc, rest, rfl⟩
    have hdig : isDigitChar hc = true := by
      apply natRepr_all_digits
      rw [hdq]
      simp
    rw [hdq]
    have hne : ¬((hc :: (rest ++ '.' ::
        (zfill p (natRepr ((roundHalfEven (x * (10 : ℚ) ^ p)).natAbs % 10 ^ p))).data)).head? =
          some '-') := by
      simp only [List.head?_cons, Option.some.injEq]
      exact isDigitChar_ne_dash hdig
    rw [List.cons_append, if_neg hne]
    have := fixedShapeCore_render p hp ((roundHalfEven (x * (10 : ℚ) ^ p)).natAbs / 10 ^ p)
      ((roundHalfEven (x * (10 : ℚ) ^ p)).natAbs % 10 ^ p) hr
    rw [hdq] at this
    simpa using this

/-! ### Random-primitive facts -/

theorem chooseD_mem {α : Type} (g : RNG) (k : ℕ) (l : List α) (d : α)
    (hg : WFRNG g) (hl : l ≠ []) : chooseD g k l d ∈ l := by
  have hlen : 0 < l.length := List.length_pos.mpr hl
  have h0 : 0 ≤ g k := (hg k).1
  have h1 : g k < 1 := (hg k).2
  have hlenq : (0 : ℚ) < (l.length : ℚ) := by exact_mod_cast hlen
  have hprod : g k * (l.length : ℚ) < (l.length : ℚ) := by
    calc g k * (l.length : ℚ) < 1 * (l.length : ℚ) := mul_lt_mul_of_pos_right h1 hlenq
      _ = (l.length : ℚ) := one_mul _
  have hfl : ⌊g k * (l.length : ℚ)⌋ < (l.length : ℤ) := by
    apply Int.floor_lt.mpr
    push_cast
    exact hprod
  have hfl0 : 0 ≤ ⌊g k * (l.length : ℚ)⌋ :=
    Int.floor_nonneg.mpr (mul_nonneg h0 (le_of_lt hlenq))
  have hidx : (⌊g k * (l.length : ℚ)⌋).toNat < l.length := by omega
  unfold chooseD
  rw [List.getD_eq_getElem l d hidx]
  exact List.getElem_mem hidx

theorem randintAt_bounds (g : RNG) (k : ℕ) (a b : ℤ) (hg : WFRNG g) (hab : a ≤ b) :
    a ≤ randintAt g k a b ∧ randintAt g k a b ≤ b := by
  have h0 : 0 ≤ g k := (hg k).1
  have h1 : g k < 1 := (hg k).2
  have hc : (0 : ℚ) < ((b - a + 1 : ℤ) : ℚ) := by
    have : (0 : ℤ) < b - a + 1 := by omega
    exact_mod_cast this
  have hup : ⌊g k * ((b - a + 1 : ℤ) : ℚ)⌋ < b - a + 1 := by
    apply Int.floor_lt.mpr
    calc g k * ((b - a + 1 : ℤ) : ℚ) < 1 * ((b - a + 1 : ℤ) : ℚ) :=
          mul_lt_mul_of_pos_right h1 hc
      _ = ((b - a + 1 : ℤ) : ℚ) := one_mul _
  have hlo : 0 ≤ ⌊g k * ((b - a + 1 : ℤ) : ℚ)⌋ :=
    Int.floor_nonneg.mpr (mul_nonneg h0 (le_of_lt hc))
  unfold randintAt
  omega

theorem uniformAt_bounds (g : RNG) (k : ℕ) (a b : ℚ) (hg : WFRNG g) (hab : a ≤ b) :
    a ≤ uniformAt g k a b ∧ uniformAt g k a b ≤ b := by
  have h0 : 0 ≤ g k := (hg k).1
  have h1 : g k < 1 := (hg k).2
  unfold uniformAt
  constructor
  · nlinarith
  · nlinarith

/-! ### A rendered date is never one of the defect literals -/

theorem renderDate_ne_empty (z : ℤ) : renderDate z ≠ "" := by
  intro h
  have h0 := congrArg String.data h
  rw [renderDate_data] at h0
  simp at h0

theorem zfill2_month_length (z : ℤ) :
    (zfill 2 (natRepr (civilFromDays z).2.1.toNat)).data.length = 2 := by
  obtain ⟨hm1, hm2, _, _⟩ := civil_md_bounds z
  rw [zfill_length]
  have := natRepr_length_le 2 (civilFromDays z).2.1.toNat (by norm_num; omega) (by norm_num)
  omega

theorem zfill2_day_length (z : ℤ) :
    (zfill 2 (natRepr (civilFromDays z).2.2.toNat)).data.length = 2 := by
  obtain ⟨_, _, hd1, hd2⟩ := civil_md_bounds z
  rw [zfill_length]
  have := natRepr_length_le 2 (civilFromDays z).2.2.toNat (by norm_num; omega) (by norm_num)
  omega

theorem renderDate_ne_badmonth (z : ℤ) : renderDate z ≠ "2026-13-45" := by
  intro h
  obtain ⟨hm1, hm2, hd1, hd2⟩ := civil_md_bounds z
  have hM := zfill2_month_length z
  have hD := zfill2_day_length z
  have h0 := congrArg String.data h
  rw [renderDate_data] at h0
  have hRHS : ("2026-13-45" : String).data =
      ['2', '0', '2', '6'] ++ '-' :: (['1', '3'] ++ '-' :: ['4', '5']) := rfl
  rw [hRHS] at h0
  have hlen := congrArg List.length h0
  simp only [List.length_append, List.length_cons, List.length_nil, hM, hD] at hlen
  have hA : (zfill 4 (natRepr (civilFromDays z).1.toNat)).data.length = 4 := by omega
  obtain ⟨-, h1⟩ := List.append_inj h0 (by rw [hA]; rfl)
  have h2 := List.tail_eq_of_cons_eq h1
  obtain ⟨h3, -⟩ := List.append_inj h2 (by rw [hM]; rfl)
  have h4 : parseDigits (zfill 2 (natRepr (civilFromDays z).2.1.toNat)).data = 13 := by
    rw [h3]
    rfl
  rw [parseDigits_zfill_natRepr] at h4
  omega

theorem renderDate_ne_notadate (z : ℤ) : renderDate z ≠ "NOT_A_DATE" := by
  intro h
  have h0 := congrArg String.data h
  rw [renderDate_data] at h0
  have hRHS : ("NOT_A_DATE" : String).data =
      ['N', 'O', 'T', '_'] ++ 'A' :: ['_', 'D', 'A', 'T', 'E'] := rfl
  rw [hRHS] at h0
  have hM := zfill2_month_length z
  have hD := zfill2_day_length z
  have hlen := congrArg List.length h0
  simp only [List.length_append, List.length_cons, List.length_nil, hM, hD] at hlen
  have hA : (zfill 4 (natRepr (civilFromDays z).1.toNat)).data.length = 4 := by omega
  obtain ⟨-, h1⟩ := List.append_inj h0 (by rw [hA]; rfl)
  exact absurd (List.head_eq_of_cons_eq h1) (by decide)

/-! ### Parsing back a rendered fixed-point decimal -/

theorem roundHalfEven_nonneg {y : ℚ} (h : 0 ≤ y) : 0 ≤ roundHalfEven y := by
  unfold roundHalfEven
  have hf : 0 ≤ ⌊y⌋ := Int.floor_nonneg.mpr h
  split
  · omega
  · split
    · omega
    · split <;> omega

theorem roundHalfEven_nonpos {y : ℚ} (h : y < 0) : roundHalfEven y ≤ 0 := by
  unfold roundHalfEven
  have hf : ⌊y⌋ < 0 := by
    rw [Int.floor_lt]
    exact_mod_cast h
  split
  · omega
  · split
    · omega
    · split <;> omega

theorem roundHalfEven_intCast (n : ℤ) : roundHalfEven (n : ℚ) = n := by
  unfold roundHalfEven
  rw [Int.floor_intCast]
  have h0 : ((n : ℚ) - n) = 0 := by ring
  rw [h0, if_pos (by norm_num)]

theorem parseDecPos_render (p q r : ℕ) (hp : p ≠ 0) (hr : r < 10 ^ p) :
    parseDecPos ((natRepr q).data ++ '.' :: (zfill p (natRepr r)).data) =
      (q : ℚ) + (r : ℚ) / (10 : ℚ) ^ p := by
  unfold parseDecPos
  rw [splitDot_append _ _ (fun c hc => isDigitChar_ne_dot (natRepr_all_digits _ c hc))]
  have hfl : (zfill p (natRepr r)).data.length = p := by
    rw [zfill_length]
    have := natRepr_length_le p r hr hp
    omega
  show ((parseDigits (natRepr q).data : ℚ) +
    (parseDigits (zfill p (natRepr r)).data : ℚ) /
      (10 : ℚ) ^ (zfill p (natRepr r)).data.length) = _
  rw [parseDigits_natRepr, parseDigits_zfill_natRepr, hfl]

theorem cast_div_add_mod (n : ℕ) (p : ℕ) :
    ((n / 10 ^ p : ℕ) : ℚ) + ((n % 10 ^ p : ℕ) : ℚ) / (10 : ℚ) ^ p = (n : ℚ) / (10 : ℚ) ^ p := by
  have h := Nat.div_add_mod n (10 ^ p)
  have h2 : (10 : ℚ) ^ p * ((n / 10 ^ p : ℕ) : ℚ) + ((n % 10 ^ p : ℕ) : ℚ) = (n : ℚ) := by
    exact_mod_cast congrArg (fun m : ℕ => (m : ℚ)) h
  have hpow : ((10 : ℚ) ^ p) ≠ 0 := by positivity
  field_simp
  linarith [h2]

theorem parseDec_data_eq (s : String) (l : List Char) (h : s.data = l) :
    parseDec s = parseDec ⟨l⟩ := by
  cases s
  cases h
  rfl

theorem parseDec_cons (c : Char) (r : List Char) :
    parseDec ⟨c :: r⟩ = if c = '-' then -(parseDecPos r) else parseDecPos (c :: r) := rfl

theorem castAbs_of_nonpos {n : ℤ} (h : n ≤ 0) : ((n.natAbs : ℕ) : ℚ) = -(n : ℚ) := by
  have habs : ((n.natAbs : ℕ) : ℤ) = -n := by omega
  calc ((n.natAbs : ℕ) : ℚ) = (((n.natAbs : ℕ) : ℤ) : ℚ) := (Int.cast_natCast _).symm
    _ = ((-n : ℤ) : ℚ) := by rw [habs]
    _ = -(n : ℚ) := by push_cast; ring

theorem castAbs_of_nonneg {n : ℤ} (h : 0 ≤ n) : ((n.natAbs : ℕ) : ℚ) = (n : ℚ) := by
  have habs : ((n.natAbs : ℕ) : ℤ) = n := by omega
  calc ((n.natAbs : ℕ) : ℚ) = (((n.natAbs : ℕ) : ℤ) : ℚ) := (Int.cast_natCast _).symm
    _ = (n : ℚ) := by rw [habs]

theorem parseDec_renderFixed (p : ℕ) (hp : p ≠ 0) (x : ℚ) :
    parseDec (renderFixed p x) =
      ((roundHalfEven (x * (10 : ℚ) ^ p) : ℤ) : ℚ) / (10 : ℚ) ^ p := by
  set n := roundHalfEven (x * (10 : ℚ) ^ p) with hn
  have hr : n.natAbs % 10 ^ p < 10 ^ p := Nat.mod_lt _ (Nat.pos_pow_of_pos _ (by norm_num))
  by_cases hx : x < 0
  · have hn0 : n ≤ 0 := by
      rw [hn]
      apply roundHalfEven_nonpos
      have : (0 : ℚ) < (10 : ℚ) ^ p := by positivity
      nlinarith
    rw [parseDec_data_eq _ _ (renderFixed_data_neg p x hx), parseDec_cons, if_pos rfl,
      parseDecPos_render p _ _ hp hr, cast_div_add_mod, castAbs_of_nonpos hn0]
    ring
  · have hn0 : 0 ≤ n := by
      rw [hn]
      apply roundHalfEven_nonneg
      have h10 : (0 : ℚ) < (10 : ℚ) ^ p := by positivity
      nlinarith [not_lt.mp hx]
    obtain ⟨hc, rest, hdq⟩ : ∃ hc rest,
        (natRepr (n.natAbs / 10 ^ p)).data = hc :: rest := by
      rcases hq : (natRepr (n.natAbs / 10 ^ p)).data with _ | ⟨hc, rest⟩
      · exact absurd hq (natRepr_ne_nil _)
      · exact ⟨hc, rest, rfl⟩
    have hdig : isDigitChar hc = true := by
      apply natRepr_all_digits
      rw [hdq]
      simp
    have hdata2 : (renderFixed p x).data =
        hc :: (rest ++ '.' :: (zfill p (natRepr (n.natAbs % 10 ^ p))).data) := by
      rw [renderFixed_data_nonneg p x hx, ← hn, hdq]
      rfl
    rw [parseDec_data_eq _ _ hdata2, parseDec_cons, if_neg (isDigitChar_ne_dash hdig),
      ← List.cons_append, ← hdq, parseDecPos_render p _ _ hp hr, cast_div_add_mod,
      castAbs_of_nonneg hn0]

theorem renderFixed_parse_idem (q : ℚ) (hq : 0 ≤ q) :
    renderFixed 2 (parseDec (renderFixed 2 q)) = renderFixed 2 q := by
  rw [parseDec_renderFixed 2 (by norm_num) q]
  set n := roundHalfEven (q * (10 : ℚ) ^ 2) with hn
  have hn0 : 0 ≤ n := by
    rw [hn]
    apply roundHalfEven_nonneg
    positivity
  have harg : ((n : ℚ) / (10 : ℚ) ^ 2) * (10 : ℚ) ^ 2 = (n : ℚ) := by
    field_simp
  unfold renderFixed
  rw [harg, roundHalfEven_intCast, ← hn]
  have hs1 : ¬((n : ℚ) / (10 : ℚ) ^ 2 < 0) := by
    push_neg
    positivity
  have hs2 : ¬(q < 0) := not_lt.mpr hq
  rw [if_neg hs1, if_neg hs2]

/-! ### Loop lengths -/

theorem sampledata_accountsLoop_length (g : RNG) (customers : List Customer) :
    ∀ n i k, (Sampledata.accountsLoop g customers n i k).length = n := by
  intro n
  induction n with
  | zero => intro i k; rfl
  | succ n ih => intro i k; simp [Sampledata.accountsLoop, ih]

theorem sampledata_transactionsLoop_length (g : RNG) (accounts : List Account) :
    ∀ n i k, (Sampledata.transactionsLoop g accounts n i k).length = n := by
  intro n
  induction n with
  | zero => intro i k; rfl
  | succ n ih => intro i k; simp [Sampledata.transactionsLoop, ih]

theorem balancesDays_length (g : RNG) (aid cur : String) :
    ∀ dl b day n k, (balancesDays g aid cur dl b day n k).length = dl := by
  intro dl
  induction dl with
  | zero => intro b day n k; rfl
  | succ dl ih => intro b day n k; simp [balancesDays, ih]

theorem balancesLoop_length (g : RNG) :
    ∀ (accounts : List Account) days n k,
      (balancesLoop g accounts days n k).length = accounts.length * days := by
  intro accounts
  induction accounts with
  | nil => intro days n k; simp [balancesLoop]
  | cons a rest ih =>
    intro days n k
    simp [balancesLoop, balancesDays_length, ih]
    ring

theorem sampledata_fxDayLoop_length (g : RNG) :
    ∀ (pairs : List (String × ℚ)) day n k,
      (Sampledata.fxDayLoop g pairs day n k).1.length = pairs.length := by
  intro pairs
  induction pairs with
  | nil => intro day n k; rfl
  | cons p rest ih =>
    intro day n k
    obtain ⟨c, b⟩ := p
    simp [Sampledata.fxDayLoop, ih]

theorem sampledata_fxLoop_length (g : RNG) :
    ∀ dl day n k, (Sampledata.fxLoop g dl day n k).1.length = dl * 7 := by
  intro dl
  induction dl with
  | zero => intro day n k; rfl
  | succ dl ih =>
    intro day n k
    have h7 : (BASE_RATES).length = 7 := rfl
    simp [Sampledata.fxLoop, sampledata_fxDayLoop_length, ih, h7]
    ring

/-- C3: for every customer collection of size `C` and every account ratio
`R ≥ 0`, the defect variant's `generate_accounts` produces exactly
`⌊C·R⌋` records, `generate_transactions` produces (accounts × per-account),
`generate_daily_balances` produces (accounts × days), and
`generate_fx_rates` produces (days × 7 quote currencies) records. -/
theorem C3_row_counts (g : RNG) (customers : List Customer) (accounts : List Account)
    (avg_accounts_per_customer : ℚ) (havg : 0 ≤ avg_accounts_per_customer)
    (transactions_per_account days fxdays : ℤ) (htpa : 0 ≤ transactions_per_account)
    (hdays : 0 ≤ days) (hfx : 0 ≤ fxdays) (k : ℕ) :
    ((Sampledata.generate_accounts g customers avg_accounts_per_customer k).length : ℤ) =
      ⌊(customers.length : ℚ) * avg_accounts_per_customer⌋ ∧
    ((Sampledata.generate_transactions g accounts transactions_per_account k).length : ℤ) =
      (accounts.length : ℤ) * transactions_per_account ∧
    ((Sampledata.generate_daily_balances g accounts days k).length : ℤ) =
      (accounts.length : ℤ) * days ∧
    (((Sampledata.generate_fx_rates g fxdays k).1.length : ℤ) = fxdays * 7) := by
  refine ⟨?_, ?_, ?_, ?_⟩
  · unfold Sampledata.generate_accounts
    rw [sampledata_accountsLoop_length]
    have hnn : 0 ≤ (customers.length : ℚ) * avg_accounts_per_customer :=
      mul_nonneg (by positivity) havg
    unfold intTrunc
    rw [if_neg (not_lt.mpr hnn)]
    have hfl : 0 ≤ ⌊(customers.length : ℚ) * avg_accounts_per_customer⌋ :=
      Int.floor_nonneg.mpr hnn
    omega
  · unfold Sampledata.generate_transactions
    rw [sampledata_transactionsLoop_length]
    have : 0 ≤ (accounts.length : ℤ) * transactions_per_account :=
      mul_nonneg (by positivity) htpa
    omega
  · unfold Sampledata.generate_daily_balances
    rw [balancesLoop_length]
    have hd : ((days.toNat : ℕ) : ℤ) = days := by omega
    push_cast
    rw [hd]
  · unfold Sampledata.generate_fx_rates
    rw [sampledata_fxLoop_length]
    omega

/-- Witness for C3 at a concrete instantiation. -/
theorem C3_row_counts_witness :
    (0 : ℚ) ≤ 3 / 2 ∧ (0 : ℤ) ≤ 2 ∧ (0 : ℤ) ≤ 2 ∧ (0 : ℤ) ≤ 1 ∧
    (((Sampledata.generate_accounts gHalf [defCustomer] (3 / 2) 0).length : ℤ) =
        ⌊(([defCustomer] : List Customer).length : ℚ) * (3 / 2)⌋ ∧
      ((Sampledata.generate_transactions gHalf [defAccount] 2 0).length : ℤ) =
        (([defAccount] : List Account).length : ℤ) * 2 ∧
      ((Sampledata.generate_daily_balances gHalf [defAccount] 2 0).length : ℤ) =
        (([defAccount] : List Account).length : ℤ) * 2 ∧
      (((Sampledata.generate_fx_rates gHalf 1 0).1.length : ℤ) = 1 * 7)) :=
  ⟨by norm_num, by norm_num, by norm_num, by norm_num,
    C3_row_counts gHalf [defCustomer] [defAccount] (3 / 2) (by norm_num) 2 2 1
      (by norm_num) (by norm_num) (by norm_num) 0⟩

/-- C9: a non-positive customer count yields the empty collection, and every
downstream generator applied to an empty parent collection yields the empty
collection, with no error branch. -/
theorem C9_degenerate (g : RNG) (count : ℤ) (hc : count ≤ 0)
    (avg_accounts_per_customer : ℚ) (transactions_per_account days : ℤ) (k : ℕ) :
    (Sampledata.generate_customers g count k).1 = [] ∧
    Sampledata.generate_accounts g [] avg_accounts_per_customer k = [] ∧
    Sampledata.generate_transactions g [] transactions_per_account k = [] ∧
    Sampledata.generate_daily_balances g [] days k = [] := by
  refine ⟨?_, ?_, ?_, ?_⟩
  · unfold Sampledata.generate_customers
    have h0 : count.toNat = 0 := by omega
    rw [h0]
    rfl
  · unfold Sampledata.generate_accounts
    have h0 : (([] : List Customer).length : ℚ) * avg_accounts_per_customer = 0 := by
      simp
    rw [h0]
    have ht : intTrunc 0 = 0 := by
      unfold intTrunc
      rw [if_neg (lt_irrefl 0)]
      exact Int.floor_zero
    rw [ht]
    rfl
  · unfold Sampledata.generate_transactions
    have h0 : ((([] : List Account).length : ℤ) * transactions_per_account).toNat = 0 := by
      simp
    rw [h0]
    rfl
  · rfl

/-- Witness for C9 at a concrete instantiation. -/
theorem C9_degenerate_witness :
    (-3 : ℤ) ≤ 0 ∧
    ((Sampledata.generate_customers gHalf (-3) 0).1 = [] ∧
      Sampledata.generate_accounts gHalf [] (3 / 2) 0 = [] ∧
      Sampledata.generate_transactions gHalf [] 10 0 = [] ∧
      Sampledata.generate_daily_balances gHalf [] 30 0 = []) :=
  ⟨by norm_num, C9_degenerate gHalf (-3) (by norm_num) (3 / 2) 10 30 0⟩

/-! ### Serialization -/

theorem strAppend_empty (s : String) : s ++ "" = s := by
  cases s with
  | mk l =>
    show (⟨l ++ []⟩ : String) = ⟨l⟩
    rw [List.append_nil]

theorem strAppend_assoc (s t u : String) : s ++ t ++ u = s ++ (t ++ u) := by
  cases s with
  | mk a =>
    cases t with
    | mk b =>
      cases u with
      | mk c =>
        show (⟨(a ++ b) ++ c⟩ : String) = ⟨a ++ (b ++ c)⟩
        rw [List.append_assoc]

theorem write_csv_foldl (fieldnames : List String) :
    ∀ (data : List (List (String × String))) (acc : String),
      data.foldl (fun acc r => acc ++ csvLine (rowOf fieldnames r)) acc =
        acc ++ rowsText fieldnames data := by
  intro data
  induction data with
  | nil => intro acc; rw [List.foldl_nil]; exact (strAppend_empty acc).symm
  | cons r rest ih =>
    intro acc
    rw [List.foldl_cons, ih, rowsText, ← strAppend_assoc]

/-- C8: `write_csv` is a pure function of the record collection and the
caller-specified column order alone — its output is the header line followed
by exactly one line per record in insertion order, and two invocations on
the same in-memory data produce byte-identical contents. -/
theorem C8_write_csv (fieldnames : List String) (data : List (List (String × String))) :
    write_csv fieldnames data = csvLine fieldnames ++ rowsText fieldnames data ∧
    (∀ data₂, data = data₂ → write_csv fieldnames data = write_csv fieldnames data₂) := by
  constructor
  · unfold write_csv
    exact write_csv_foldl fieldnames data (csvLine fieldnames)
  · intro data₂ h
    rw [h]

/-- Witness for C8 at a concrete instantiation. -/
theorem C8_write_csv_witness :
    write_csv ["a", "b"] [[("a", "1"), ("b", "2")]] =
        csvLine ["a", "b"] ++ rowsText ["a", "b"] [[("a", "1"), ("b", "2")]] ∧
    (∀ data₂, [[("a", "1"), ("b", "2")]] = data₂ →
      write_csv ["a", "b"] [[("a", "1"), ("b", "2")]] = write_csv ["a", "b"] data₂) :=
  C8_write_csv ["a", "b"] [[("a", "1"), ("b", "2")]]

/-! ### Transaction linkage -/

theorem sampledata_mkTransaction_link (g : RNG) (accounts : List Account) (i k : ℕ)
    (hg : WFRNG g) (ha : accounts ≠ []) :
    ∃ a ∈ accounts, (Sampledata.mkTransaction g accounts i k).account_id = a.account_id ∧
      (Sampledata.mkTransaction g accounts i k).currency = a.currency :=
  ⟨chooseD g k accounts defAccount, chooseD_mem g k accounts defAccount hg ha, rfl, rfl⟩

theorem pure_mkTransaction_link (g : RNG) (accounts : List Account) (i k : ℕ)
    (hg : WFRNG g) (ha : accounts ≠ []) :
    ∃ a ∈ accounts, (GeneratePure.mkTransaction g accounts i k).account_id = a.account_id ∧
      (GeneratePure.mkTransaction g accounts i k).currency = a.currency :=
  ⟨chooseD g k accounts defAccount, chooseD_mem g k accounts defAccount hg ha, rfl, rfl⟩

theorem sampledata_transactionsLoop_link (g : RNG) (accounts : List Account)
    (hg : WFRNG g) (ha : accounts ≠ []) :
    ∀ n i k, ∀ t ∈ Sampledata.transactionsLoop g accounts n i k,
      ∃ a ∈ accounts, t.account_id = a.account_id ∧ t.currency = a.currency := by
  intro n
  induction n with
  | zero => intro i k t ht; simp [Sampledata.transactionsLoop] at ht
  | succ n ih =>
    intro i k t ht
    rcases List.mem_cons.mp ht with h | h
    · rw [h]; exact sampledata_mkTransaction_link g accounts i k hg ha
    · exact ih (i + 1) (k + 8) t h

theorem pure_transactionsLoop_link (g : RNG) (accounts : List Account)
    (hg : WFRNG g) (ha : accounts ≠ []) :
    ∀ n i k, ∀ t ∈ GeneratePure.transactionsLoop g accounts n i k,
      ∃ a ∈ accounts, t.account_id = a.account_id ∧ t.currency = a.currency := by
  intro n
  induction n with
  | zero => intro i k t ht; simp [GeneratePure.transactionsLoop] at ht
  | succ n ih =>
    intro i k t ht
    rcases List.mem_cons.mp ht with h | h
    · rw [h]; exact pure_mkTransaction_link g accounts i k hg ha
    · exact ih (i + 1) (k + 7) t h

/-- C7: in both variants, every generated transaction's `account_id` and
`currency` are copied from one and the same record of the supplied account
collection (the account picked by `random.choice`). -/
theorem C7_transaction_currency (g : RNG) (hg : WFRNG g) (accounts : List Account)
    (ha : accounts ≠ []) (transactions_per_account : ℤ) (k : ℕ) :
    (∀ t ∈ Sampledata.generate_transactions g accounts transactions_per_account k,
      ∃ a ∈ accounts, t.account_id = a.account_id ∧ t.currency = a.currency) ∧
    (∀ t ∈ GeneratePure.generate_transactions g accounts transactions_per_account k,
      ∃ a ∈ accounts, t.account_id = a.account_id ∧ t.currency = a.currency) := by
  constructor
  · intro t ht
    exact sampledata_transactionsLoop_link g accounts hg ha _ 0 k t ht
  · intro t ht
    exact pure_transactionsLoop_link g accounts hg ha _ 0 k t ht

theorem gHalf_WF : WFRNG gHalf := by
  intro k
  constructor <;> norm_num [gHalf, constStream]

/-- Witness for C7 at a concrete instantiation. -/
theorem C7_transaction_currency_witness :
    WFRNG gHalf ∧ ([defAccount] : List Account) ≠ [] ∧
    ((∀ t ∈ Sampledata.generate_transactions gHalf [defAccount] 1 0,
        ∃ a ∈ ([defAccount] : List Account),
          t.account_id = a.account_id ∧ t.currency = a.currency) ∧
      (∀ t ∈ GeneratePure.generate_transactions gHalf [defAccount] 1 0,
        ∃ a ∈ ([defAccount] : List Account),
          t.account_id = a.account_id ∧ t.currency = a.currency)) :=
  ⟨gHalf_WF, by simp,
    C7_transaction_currency gHalf gHalf_WF [defAccount] (by simp) 1 0⟩

/-! ### The daily-balance random walk (C2) -/

theorem walkFrom_shift (g : RNG) :
    ∀ i (b : ℚ) (k : ℕ),
      walkFrom g (b + uniformAt g k (-1000) 1000) (k + 1) i = walkFrom g b k (i + 1) := by
  intro i
  induction i with
  | zero =>
    intro b k
    show b + uniformAt g k (-1000) 1000 = walkFrom g b k 0 + uniformAt g (k + 0) (-1000) 1000
    rw [Nat.add_zero]
    rfl
  | succ i ih =>
    intro b k
    show walkFrom g (b + uniformAt g k (-1000) 1000) (k + 1) i +
        uniformAt g (k + 1 + i) (-1000) 1000 = _
    rw [ih b k]
    have he : k + 1 + i = k + (i + 1) := by omega
    rw [he]
    rfl

theorem balancesDays_getD (g : RNG) (aid cur : String) :
    ∀ dl (b : ℚ) (day n k i : ℕ), i < dl →
      (balancesDays g aid cur dl b day n k).getD i defBalance =
        { balance_id := "BAL" ++ zfill 10 (natRepr (n + i + 1))
          account_id := aid
          balance_date := renderDate (TODAY - (day + i : ℕ))
          opening_balance := renderFixed 2 (walkFrom g b k i)
          closing_balance := renderFixed 2 (walkFrom g b k (i + 1))
          currency := cur } := by
  intro dl
  induction dl with
  | zero => intro b day n k i h; omega
  | succ dl ih =>
    intro b day n k i h
    cases i with
    | zero =>
      show (balancesDays g aid cur (dl + 1) b day n k).getD 0 defBalance = _
      rw [balancesDays]
      simp only [List.getD_cons_zero]
      have h1 : walkFrom g b k 0 = b := rfl
      have h2 : walkFrom g b k 1 = b + uniformAt g (k + 0) (-1000) 1000 := rfl
      rw [h1, h2]
      simp
    | succ i =>
      show (balancesDays g aid cur (dl + 1) b day n k).getD (i + 1) defBalance = _
      rw [balancesDays]
      simp only [List.getD_cons_succ]
      rw [ih (b + uniformAt g k (-1000) 1000) (day + 1) (n + 1) (k + 1) i (by omega)]
      have e1 : n + 1 + i + 1 = n + (i + 1) + 1 := by omega
      have e2 : day + 1 + i = day + (i + 1) := by omega
      rw [e1, e2, walkFrom_shift g i b k, walkFrom_shift g (i + 1) b k]

theorem balancesLoop_getD (g : RNG) :
    ∀ (accounts : List Account) (days n k j i : ℕ), j < accounts.length → i < days →
      (balancesLoop g accounts days n k).getD (j * days + i) defBalance =
        (balancesDays g (accounts.getD j defAccount).account_id
          (accounts.getD j defAccount).currency days
          (parseDec (accounts.getD j defAccount).balance) 0
          (n + j * days) (k + j * days)).getD i defBalance := by
  intro accounts
  induction accounts with
  | nil => intro days n k j i hj hi; simp at hj
  | cons a rest ih =>
    intro days n k j i hj hi
    cases j with
    | zero =>
      rw [balancesLoop]
      have hlen : (balancesDays g a.account_id a.currency days (parseDec a.balance) 0 n k).length
          = days := balancesDays_length g a.account_id a.currency days _ 0 n k
      rw [show (0 : ℕ) * days + i = i by omega]
      rw [List.getD_append _ _ _ _ (by omega)]
      simp only [List.getD_cons_zero]
      rw [show n + 0 * days = n by omega, show k + 0 * days = k by omega]
    | succ j =>
      rw [balancesLoop]
      have hlen : (balancesDays g a.account_id a.currency days (parseDec a.balance) 0 n k).length
          = days := balancesDays_length g a.account_id a.currency days _ 0 n k
      have hge : (balancesDays g a.account_id a.currency days (parseDec a.balance) 0 n k).length
          ≤ (j + 1) * days + i := by
        rw [hlen]
        have : days ≤ (j + 1) * days := by
          calc days = 1 * days := (one_mul days).symm
            _ ≤ (j + 1) * days := Nat.mul_le_mul_right days (by omega)
        omega
      rw [List.getD_append_right _ _ _ _ hge]
      rw [hlen]
      have hidx : (j + 1) * days + i - days = j * days + i := by
        have : (j + 1) * days = j * days + days := by ring
        omega
      rw [hidx]
      rw [ih days (n + days) (k + days) j i (by simpa using hj) hi]
      simp only [List.getD_cons_succ]
      have e1 : n + days + j * days = n + (j + 1) * days := by ring
      have e2 : k + days + j * days = k + (j + 1) * days := by ring
      rw [e1, e2]

/-- C2: in `generate_daily_balances` (whose body is identical in the two
variants), for each account position `j` the day-`i+1` record's opening
balance string equals the day-`i` record's closing balance string; each
record's opening/closing balance strings render the walk value
`walkFrom … i` and `walkFrom … i + delta_i` (that iteration's
`uniform(-1000, 1000)` draw); and the day-0 record's opening balance equals
the account's nominal `balance` field whenever that field is a rendered
two-decimal amount. -/
theorem C2_daily_balance_walk (g : RNG) (accounts : List Account) (days : ℤ) (k : ℕ)
    (j i : ℕ) (hj : j < accounts.length) (hi : i + 1 < days.toNat) :
    ((Sampledata.generate_daily_balances g accounts days k).getD
        (j * days.toNat + i + 1) defBalance).opening_balance =
      ((Sampledata.generate_daily_balances g accounts days k).getD
        (j * days.toNat + i) defBalance).closing_balance ∧
    ((Sampledata.generate_daily_balances g accounts days k).getD
        (j * days.toNat + i) defBalance).opening_balance =
      renderFixed 2 (walkFrom g (parseDec (accounts.getD j defAccount).balance)
        (k + j * days.toNat) i) ∧
    ((Sampledata.generate_daily_balances g accounts days k).getD
        (j * days.toNat + i) defBalance).closing_balance =
      renderFixed 2 (walkFrom g (parseDec (accounts.getD j defAccount).balance)
        (k + j * days.toNat) i + uniformAt g (k + j * days.toNat + i) (-1000) 1000) ∧
    (∀ q : ℚ, 0 ≤ q → (accounts.getD j defAccount).balance = renderFixed 2 q →
      ((Sampledata.generate_daily_balances g accounts days k).getD
        (j * days.toNat) defBalance).opening_balance =
        (accounts.getD j defAccount).balance) ∧
    GeneratePure.generate_daily_balances g accounts days k =
      Sampledata.generate_daily_balances g accounts days k := by
  have hbl : Sampledata.generate_daily_balances g accounts days k =
      balancesLoop g accounts days.toNat 0 k := rfl
  have hii : i < days.toNat := by omega
  have h0 : 0 < days.toNat := by omega
  have hidx1 : j * days.toNat + i + 1 = j * days.toNat + (i + 1) := by omega
  refine ⟨?_, ?_, ?_, ?_, rfl⟩
  · rw [hbl, hidx1, balancesLoop_getD g accounts days.toNat 0 k j (i + 1) hj hi,
      balancesLoop_getD g accounts days.toNat 0 k j i hj hii,
      balancesDays_getD g _ _ days.toNat _ 0 _ _ (i + 1) hi,
      balancesDays_getD g _ _ days.toNat _ 0 _ _ i hii]
  · rw [hbl, balancesLoop_getD g accounts days.toNat 0 k j i hj hii,
      balancesDays_getD g _ _ days.toNat _ 0 _ _ i hii]
  · rw [hbl, balancesLoop_getD g accounts days.toNat 0 k j i hj hii,
      balancesDays_getD g _ _ days.toNat _ 0 _ _ i hii]
    show renderFixed 2 (walkFrom g (parseDec (accounts.getD j defAccount).balance)
      (k + j * days.toNat) (i + 1)) = _
    have : walkFrom g (parseDec (accounts.getD j defAccount).balance)
        (k + j * days.toNat) (i + 1) =
        walkFrom g (parseDec (accounts.getD j defAccount).balance) (k + j * days.toNat) i +
          uniformAt g (k + j * days.toNat + i) (-1000) 1000 := rfl
    rw [this]
  · intro q hq hbal
    have hz : j * days.toNat = j * days.toNat + 0 := by omega
    rw [hbl, hz, balancesLoop_getD g accounts days.toNat 0 k j 0 hj h0,
      balancesDays_getD g _ _ days.toNat _ 0 _ _ 0 h0]
    show renderFixed 2 (walkFrom g (parseDec (accounts.getD j defAccount).balance)
      (k + j * days.toNat) 0) = _
    have hw : walkFrom g (parseDec (accounts.getD j defAccount).balance)
        (k + j * days.toNat) 0 = parseDec (accounts.getD j defAccount).balance := rfl
    rw [hw, hbal, renderFixed_parse_idem q hq]

/-- Witness for C2 at a concrete instantiation. -/
theorem C2_daily_balance_walk_witness :
    (0 : ℕ) < ([{ defAccount with balance := "100.00" }] : List Account).length ∧
    0 + 1 < (2 : ℤ).toNat ∧
    (((Sampledata.generate_daily_balances gHalf [{ defAccount with balance := "100.00" }] 2 0).getD
        (0 * (2 : ℤ).toNat + 0 + 1) defBalance).opening_balance =
      ((Sampledata.generate_daily_balances gHalf [{ defAccount with balance := "100.00" }] 2 0).getD
        (0 * (2 : ℤ).toNat + 0) defBalance).closing_balance ∧
    ((Sampledata.generate_daily_balances gHalf [{ defAccount with balance := "100.00" }] 2 0).getD
        (0 * (2 : ℤ).toNat + 0) defBalance).opening_balance =
      renderFixed 2 (walkFrom gHalf
        (parseDec (([{ defAccount with balance := "100.00" }] : List Account).getD 0
          defAccount).balance) (0 + 0 * (2 : ℤ).toNat) 0) ∧
    ((Sampledata.generate_daily_balances gHalf [{ defAccount with balance := "100.00" }] 2 0).getD
        (0 * (2 : ℤ).toNat + 0) defBalance).closing_balance =
      renderFixed 2 (walkFrom gHalf
        (parseDec (([{ defAccount with balance := "100.00" }] : List Account).getD 0
          defAccount).balance) (0 + 0 * (2 : ℤ).toNat) 0 +
        uniformAt gHalf (0 + 0 * (2 : ℤ).toNat + 0) (-1000) 1000) ∧
    (∀ q : ℚ, 0 ≤ q →
      (([{ defAccount with balance := "100.00" }] : List Account).getD 0 defAccount).balance =
        renderFixed 2 q →
      ((Sampledata.generate_daily_balances gHalf [{ defAccount with balance := "100.00" }] 2 0).getD
        (0 * (2 : ℤ).toNat) defBalance).opening_balance =
        (([{ defAccount with balance := "100.00" }] : List Account).getD 0 defAccount).balance) ∧
    GeneratePure.generate_daily_balances gHalf [{ defAccount with balance := "100.00" }] 2 0 =
      Sampledata.generate_daily_balances gHalf [{ defAccount with balance := "100.00" }] 2 0) :=
  ⟨by norm_num, by norm_num,
    C2_daily_balance_walk gHalf [{ defAccount with balance := "100.00" }] 2 0 0 0
      (by norm_num) (by norm_num)⟩

/-! ### Orphan injection (C4) -/

theorem sampledata_mkCustomer_id (g : RNG) (i k : ℕ) :
    (Sampledata.mkCustomer g i k).1.customer_id = "" ∨
    (Sampledata.mkCustomer g i k).1.customer_id = "CUST" ++ zfill 6 (natRepr (i + 1)) := by
  by_cases h : (0.01 : ℚ) < g (k + 3)
  · right
    show (if (0.01 : ℚ) < g (k + 3) then "CUST" ++ zfill 6 (natRepr (i + 1)) else "") = _
    rw [if_pos h]
  · left
    show (if (0.01 : ℚ) < g (k + 3) then "CUST" ++ zfill 6 (natRepr (i + 1)) else "") = _
    rw [if_neg h]

theorem sampledata_customersLoop_ids (g : RNG) :
    ∀ n i k, ∀ c ∈ (Sampledata.customersLoop g n i k).1,
      c.customer_id = "" ∨
      ∃ j, i + 1 ≤ j ∧ j ≤ i + n ∧ c.customer_id = "CUST" ++ zfill 6 (natRepr j) := by
  intro n
  induction n with
  | zero => intro i k c hc; simp [Sampledata.customersLoop] at hc
  | succ n ih =>
    intro i k c hc
    have hc2 : c = (Sampledata.mkCustomer g i k).1 ∨
        c ∈ (Sampledata.customersLoop g n (i + 1) (Sampledata.mkCustomer g i k).2).1 := by
      have : (Sampledata.customersLoop g (n + 1) i k).1 =
          (Sampledata.mkCustomer g i k).1 ::
            (Sampledata.customersLoop g n (i + 1) (Sampledata.mkCustomer g i k).2).1 := rfl
      rw [this] at hc
      exact List.mem_cons.mp hc
    rcases hc2 with h | h
    · rcases sampledata_mkCustomer_id g i k with h2 | h2
      · left; rw [h]; exact h2
      · right; exact ⟨i + 1, le_rfl, by omega, by rw [h]; exact h2⟩
    · rcases ih (i + 1) (Sampledata.mkCustomer g i k).2 c h with h2 | ⟨j, hj1, hj2, hj3⟩
      · left; exact h2
      · right; exact ⟨j, by omega, by omega, hj3⟩

theorem cust_id_ne (m n : ℕ) (hm1 : 1 ≤ m) (hm2 : m ≤ 899999)
    (hn1 : 900000 ≤ n) (hn2 : n ≤ 999999) :
    "CUST" ++ zfill 6 (natRepr m) ≠ "CUST" ++ natRepr n := by
  intro h
  have hd := congrArg String.data h
  rw [strData_append, strData_append] at hd
  have hd2 := List.append_cancel_left hd
  have hv := congrArg parseDigits hd2
  rw [parseDigits_zfill_natRepr] at hv
  rw [parseDigits_natRepr] at hv
  omega

theorem cust_prefixed_ne_empty (s : String) : "CUST" ++ s ≠ "" := by
  intro h
  have := congrArg (fun t : String => t.data.length) h
  simp [strData_append] at this

/-- C4 (amended): whenever the orphan branch of the defect variant's
`generate_accounts` is taken, the synthesized `CUST`-identifier (drawn from
900000–999999) differs from the `customer_id` of every record of any
customer collection generated with a count of at most 899999.  (The claim
as stated, for arbitrary counts, fails at count 900000; see the
counterexample.) -/
theorem C4_orphan_amended (g g₂ : RNG) (hg : WFRNG g) (count : ℤ)
    (hcount : count ≤ 899999) (k k₂ i : ℕ) (horphan : g k < (0.05 : ℚ)) :
    ∀ c ∈ (Sampledata.generate_customers g₂ count k₂).1,
      (Sampledata.mkAccount g (Sampledata.generate_customers g₂ count k₂).1 i k).customer_id ≠
        c.customer_id := by
  intro c hc
  have hid : (Sampledata.mkAccount g (Sampledata.generate_customers g₂ count k₂).1 i k).customer_id
      = "CUST" ++ natRepr (randintAt g (k + 1) 900000 999999).toNat := by
    show (if g k < (0.05 : ℚ)
      then "CUST" ++ natRepr (randintAt g (k + 1) 900000 999999).toNat
      else (chooseD g (k + 1) (Sampledata.generate_customers g₂ count k₂).1
        defCustomer).customer_id) = _
    rw [if_pos horphan]
  obtain ⟨hn1, hn2⟩ := randintAt_bounds g (k + 1) 900000 999999 hg (by norm_num)
  rw [hid]
  rcases sampledata_customersLoop_ids g₂ count.toNat 0 k₂ c hc with h | ⟨j, hj1, hj2, hj3⟩
  · rw [h]
    exact cust_prefixed_ne_empty _
  · rw [hj3]
    have hj4 : j ≤ 899999 := by omega
    exact Ne.symm (cust_id_ne j (randintAt g (k + 1) 900000 999999).toNat (by omega) hj4
      (by omega) (by omega))

theorem gZero_WF : WFRNG gZero := by
  intro k
  constructor <;> norm_num [gZero, constStream]

/-- Witness for the amended C4 at a concrete instantiation. -/
theorem C4_orphan_amended_witness :
    WFRNG gZero ∧ (1 : ℤ) ≤ 899999 ∧ gZero 0 < (0.05 : ℚ) ∧
    (∀ c ∈ (Sampledata.generate_customers gHalf 1 0).1,
      (Sampledata.mkAccount gZero (Sampledata.generate_customers gHalf 1 0).1 0 0).customer_id ≠
        c.customer_id) :=
  ⟨gZero_WF, by norm_num, by norm_num [gZero, constStream],
    C4_orphan_amended gZero gHalf gZero_WF 1 (by norm_num) 0 0 0
      (by norm_num [gZero, constStream])⟩

theorem gHalf_customersLoop_id_mem (j : ℕ) :
    ∀ n i k, j < n → ∃ c ∈ (Sampledata.customersLoop gHalf n i k).1,
      c.customer_id = "CUST" ++ zfill 6 (natRepr (i + j + 1)) := by
  induction j with
  | zero =>
    intro n i k hj
    obtain ⟨n', rfl⟩ : ∃ n', n = n' + 1 := ⟨n - 1, by omega⟩
    refine ⟨(Sampledata.mkCustomer gHalf i k).1, ?_, ?_⟩
    · have hcons : (Sampledata.customersLoop gHalf (n' + 1) i k).1 =
          (Sampledata.mkCustomer gHalf i k).1 ::
            (Sampledata.customersLoop gHalf n' (i + 1) (Sampledata.mkCustomer gHalf i k).2).1 :=
        rfl
      rw [hcons]
      exact List.mem_cons_self _ _
    · show (if (0.01 : ℚ) < gHalf (k + 3) then "CUST" ++ zfill 6 (natRepr (i + 1)) else "") = _
      rw [if_pos (by norm_num [gHalf, constStream])]
  | succ j ih =>
    intro n i k hj
    obtain ⟨n', rfl⟩ : ∃ n', n = n' + 1 := ⟨n - 1, by omega⟩
    obtain ⟨c, hc, hcid⟩ := ih n' (i + 1) (Sampledata.mkCustomer gHalf i k).2 (by omega)
    refine ⟨c, ?_, ?_⟩
    · have hcons : (Sampledata.customersLoop gHalf (n' + 1) i k).1 =
          (Sampledata.mkCustomer gHalf i k).1 ::
            (Sampledata.customersLoop gHalf n' (i + 1) (Sampledata.mkCustomer gHalf i k).2).1 :=
        rfl
      rw [hcons]
      exact List.mem_cons_of_mem _ hc
    · rw [hcid]
      have : i + 1 + j + 1 = i + (j + 1) + 1 := by omega
      rw [this]

/-- Counterexample to C4 as stated: with 900000 generated customers, a kept
customer id `CUST900000` collides with an orphan-branch identifier drawn as
900000. -/
theorem C4_counterexample :
    gZero 0 < (0.05 : ℚ) ∧
    ∃ c ∈ (Sampledata.generate_customers gHalf 900000 0).1,
      (Sampledata.mkAccount gZero (Sampledata.generate_customers gHalf 900000 0).1 0 0).customer_id
        = c.customer_id := by
  constructor
  · norm_num [gZero, constStream]
  · obtain ⟨c, hc, hcid⟩ := gHalf_customersLoop_id_mem 899999 900000 0 0 (by norm_num)
    refine ⟨c, hc, ?_⟩
    have hid : (Sampledata.mkAccount gZero (Sampledata.generate_customers gHalf 900000 0).1 0
        0).customer_id = "CUST" ++ natRepr (randintAt gZero 1 900000 999999).toNat := by
      show (if gZero 0 < (0.05 : ℚ)
        then "CUST" ++ natRepr (randintAt gZero 1 900000 999999).toNat
        else (chooseD gZero 1 (Sampledata.generate_customers gHalf 900000 0).1
          defCustomer).customer_id) = _
      rw [if_pos (by norm_num [gZero, constStream])]
    rw [hid, hcid]
    have hr : (randintAt gZero 1 900000 999999).toNat = 900000 := by decide
    rw [hr]
    decide

/-! ### Defect/clean disjointness (C6) -/

theorem dom_facts (dom : String) (h : dom ∈ EMAIL_DOMAINS) :
    dom.data ≠ [] ∧ dom.data.getLast? = some 'm' := by
  fin_cases h <;> exact ⟨by decide, by decide⟩

theorem clean_email_getLast (fn ln dom : String) (hdom : dom ∈ EMAIL_DOMAINS) :
    (lowerStr fn ++ "." ++ lowerStr ln ++ "@" ++ dom).data.getLast? = some 'm' := by
  obtain ⟨h1, h2⟩ := dom_facts dom hdom
  rw [strData_append, List.getLast?_append_of_ne_nil _ h1, h2]

theorem email_defect_ne_clean (g₂ : RNG) (hg₂ : WFRNG g₂) (fn ln : String) (k₂ : ℕ)
    (v : String)
    (hv : v ∈ [lowerStr fn ++ "@", lowerStr fn ++ "." ++ lowerStr ln,
      lowerStr fn ++ "@invalid", ""]) :
    v ≠ (Sampledata.generate_email g₂ fn ln false k₂).1 := by
  have hclean : (Sampledata.generate_email g₂ fn ln false k₂).1 =
      lowerStr fn ++ "." ++ lowerStr ln ++ "@" ++ chooseD g₂ k₂ EMAIL_DOMAINS "" := rfl
  have hdom : chooseD g₂ k₂ EMAIL_DOMAINS "" ∈ EMAIL_DOMAINS :=
    chooseD_mem g₂ k₂ EMAIL_DOMAINS "" hg₂ (by decide)
  have hlast := clean_email_getLast fn ln _ hdom
  obtain ⟨hdnn, -⟩ := dom_facts _ hdom
  rw [hclean]
  simp only [List.mem_cons, List.not_mem_nil, or_false] at hv
  rcases hv with rfl | rfl | rfl | rfl
  · intro h
    have h2 := congrArg (fun s : String => s.data.getLast?) h
    simp only at h2
    rw [hlast] at h2
    have h3 : (lowerStr fn ++ "@").data.getLast? = some '@' := by
      rw [strData_append, List.getLast?_append_of_ne_nil _ (by decide)]
      rfl
    rw [h3] at h2
    exact absurd h2 (by decide)
  · intro h
    have h2 := congrArg (fun s : String => s.data.length) h
    simp only [strData_append, List.length_append, List.length_cons, List.length_nil] at h2
    omega
  · intro h
    have h2 := congrArg (fun s : String => s.data.getLast?) h
    simp only at h2
    rw [hlast] at h2
    have h3 : (lowerStr fn ++ "@invalid").data.getLast? = some 'd' := by
      rw [strData_append, List.getLast?_append_of_ne_nil _ (by decide)]
      rfl
    rw [h3] at h2
    exact absurd h2 (by decide)
  · intro h
    have h2 := congrArg (fun s : String => s.data.length) h
    simp only [strData_append, List.length_append, List.length_cons, List.length_nil] at h2
    have : 1 ≤ (chooseD g₂ k₂ EMAIL_DOMAINS "").data.length := by
      rcases hq : (chooseD g₂ k₂ EMAIL_DOMAINS "").data with _ | ⟨c, r⟩
      · exact absurd hq hdnn
      · simp [hq]
    have h0 : (("" : String)).data.length = 0 := rfl
    omega

theorem phone_clean_head (g₂ : RNG) (k₂ : ℕ) :
    (Sampledata.generate_phone g₂ false k₂).1.data.head? = some '+' := rfl

theorem phone_defect_ne_clean (g₂ : RNG) (k₂ : ℕ) (v : String)
    (hv : v ∈ ["123", "12345678901234567890", "ABC-DEF-GHIJ", ""]) :
    v ≠ (Sampledata.generate_phone g₂ false k₂).1 := by
  have hhead := phone_clean_head g₂ k₂
  simp only [List.mem_cons, List.not_mem_nil, or_false] at hv
  rcases hv with rfl | rfl | rfl | rfl <;>
  · intro h
    have h2 := congrArg (fun s : String => s.data.head?) h
    simp only at h2
    rw [hhead] at h2
    exact absurd h2 (by decide)

/-- C6 (amended): the defect branch of `generate_email` and of
`generate_phone` can never return a value the clean branch can return for
the same arguments; for `generate_date` the same holds provided no date
reachable from `base_date ± days_range` renders as the literal
`"2099-12-31"` (which is also a defect literal — the source of the
counterexample to the claim as stated). -/
theorem C6_disjoint_amended (g g₂ : RNG) (hg : WFRNG g) (hg₂ : WFRNG g₂)
    (k k₂ : ℕ) (fn ln : String) (base_date days_range : ℤ) (hrange : 0 ≤ days_range) :
    (g k < (0.15 : ℚ) →
      (Sampledata.generate_email g fn ln true k).1 ≠
        (Sampledata.generate_email g₂ fn ln false k₂).1) ∧
    (g k < (0.10 : ℚ) →
      (Sampledata.generate_phone g true k).1 ≠ (Sampledata.generate_phone g₂ false k₂).1) ∧
    ((∀ off : ℤ, -days_range ≤ off → off ≤ days_range →
        renderDate (base_date + off) ≠ "2099-12-31") →
      g k < (0.05 : ℚ) →
      (Sampledata.generate_date g base_date days_range true k).1 ≠
        (Sampledata.generate_date g₂ base_date days_range false k₂).1) := by
  refine ⟨?_, ?_, ?_⟩
  · intro hk
    have hdef : (Sampledata.generate_email g fn ln true k).1 =
        chooseD g (k + 1) [lowerStr fn ++ "@", lowerStr fn ++ "." ++ lowerStr ln,
          lowerStr fn ++ "@invalid", ""] "" := by
      show (if g k < (0.15 : ℚ)
        then ((chooseD g (k + 1) [lowerStr fn ++ "@", lowerStr fn ++ "." ++ lowerStr ln,
          lowerStr fn ++ "@invalid", ""] "", k + 2) : String × ℕ)
        else (lowerStr fn ++ "." ++ lowerStr ln ++ "@" ++
          chooseD g (k + 1) EMAIL_DOMAINS "", k + 2)).1 = _
      rw [if_pos hk]
    rw [hdef]
    exact email_defect_ne_clean g₂ hg₂ fn ln k₂ _
      (chooseD_mem g (k + 1) _ "" hg (List.cons_ne_nil _ _))
  · intro hk
    have hdef : (Sampledata.generate_phone g true k).1 =
        chooseD g (k + 1) ["123", "12345678901234567890", "ABC-DEF-GHIJ", ""] "" := by
      show (if g k < (0.10 : ℚ)
        then ((chooseD g (k + 1) ["123", "12345678901234567890", "ABC-DEF-GHIJ", ""] "",
          k + 2) : String × ℕ)
        else ("+1-" ++ natRepr (randintAt g (k + 1) 200 999).toNat ++
          "-" ++ natRepr (randintAt g (k + 2) 200 999).toNat ++
          "-" ++ natRepr (randintAt g (k + 3) 1000 9999).toNat, k + 4)).1 = _
      rw [if_pos hk]
    rw [hdef]
    exact phone_defect_ne_clean g₂ k₂ _ (chooseD_mem g (k + 1) _ "" hg (List.cons_ne_nil _ _))
  · intro hno hk
    have hdef : (Sampledata.generate_date g base_date days_range true k).1 =
        chooseD g (k + 1) ["2026-13-45", "NOT_A_DATE", "2099-12-31", ""] "" := by
      show (if g k < (0.05 : ℚ)
        then ((chooseD g (k + 1) ["2026-13-45", "NOT_A_DATE", "2099-12-31", ""] "",
          k + 2) : String × ℕ)
        else (renderDate (base_date + randintAt g (k + 1) (-days_range) days_range), k + 2)).1 = _
      rw [if_pos hk]
    have hclean : (Sampledata.generate_date g₂ base_date days_range false k₂).1 =
        renderDate (base_date + randintAt g₂ k₂ (-days_range) days_range) := rfl
    obtain ⟨ho1, ho2⟩ := randintAt_bounds g₂ k₂ (-days_range) days_range hg₂ (by omega)
    rw [hdef, hclean]
    have hv := chooseD_mem g (k + 1) ["2026-13-45", "NOT_A_DATE", "2099-12-31", ""] "" hg
      (by decide)
    simp only [List.mem_cons, List.not_mem_nil, or_false] at hv
    rcases hv with hv | hv | hv | hv <;> rw [hv]
    · exact fun h => renderDate_ne_badmonth _ h.symm
    · exact fun h => renderDate_ne_notadate _ h.symm
    · exact fun h => hno _ ho1 ho2 h.symm
    · exact fun h => renderDate_ne_empty _ h.symm

/-- Witness for the amended C6 at a concrete instantiation. -/
theorem C6_disjoint_amended_witness :
    WFRNG gZero ∧ WFRNG gHalf ∧ (0 : ℤ) ≤ 0 ∧
    ((gZero 0 < (0.15 : ℚ) →
      (Sampledata.generate_email gZero "John" "Smith" true 0).1 ≠
        (Sampledata.generate_email gHalf "John" "Smith" false 0).1) ∧
    (gZero 0 < (0.10 : ℚ) →
      (Sampledata.generate_phone gZero true 0).1 ≠ (Sampledata.generate_phone gHalf false 0).1) ∧
    ((∀ off : ℤ, -0 ≤ off → off ≤ 0 →
        renderDate (TODAY + off) ≠ "2099-12-31") →
      gZero 0 < (0.05 : ℚ) →
      (Sampledata.generate_date gZero TODAY 0 true 0).1 ≠
        (Sampledata.generate_date gHalf TODAY 0 false 0).1)) :=
  ⟨gZero_WF, gHalf_WF, by norm_num,
    C6_disjoint_amended gZero gHalf gZero_WF gHalf_WF 0 0 "John" "Smith" TODAY 0 (by norm_num)⟩

/-- Counterexample to C6 as stated: called with `base_date = 2099-12-31` and
`days_range = 0`, the defect branch of `generate_date` returns exactly the
string the clean branch returns for the same arguments. -/
theorem C6_counterexample :
    gDateCex 0 < (0.05 : ℚ) ∧
    (Sampledata.generate_date gDateCex (daysFromCivil 2099 12 31) 0 true 0).1 =
      (Sampledata.generate_date gZero (daysFromCivil 2099 12 31) 0 false 0).1 := by
  constructor
  · norm_num [gDateCex]
  · decide

/-! ### Variant comparison (C5) -/

theorem alignC5_at (i r : ℕ) (hr : r < 10) : alignC5 (10 * i + r) = 15 * i + alignTau r := by
  unfold alignC5
  have h1 : (10 * i + r) / 10 = i := by omega
  have h2 : (10 * i + r) % 10 = r := by omega
  rw [h1, h2]

theorem mkCustomer0_align (g h : RNG) (i k k' : ℕ)
    (hg2 : ¬ g (k + 2) < (0 : ℚ)) (h3 : (0 : ℚ) < g (k + 3)) (h4 : (0 : ℚ) < g (k + 4))
    (h5 : (0 : ℚ) < g (k + 5)) (h11 : (0 : ℚ) < g (k + 11))
    (e0 : h k' = g k) (e1 : h (k' + 1) = g (k + 1)) (e2 : h (k' + 2) = g (k + 6))
    (e3 : h (k' + 3) = g (k + 7)) (e4 : h (k' + 4) = g (k + 8)) (e5 : h (k' + 5) = g (k + 9))
    (e6 : h (k' + 6) = g (k + 10)) (e7 : h (k' + 7) = g (k + 12)) (e8 : h (k' + 8) = g (k + 13))
    (e9 : h (k' + 9) = g (k + 14)) :
    Sampledata0.mkCustomer g i k = (GeneratePure.mkCustomer h i k', k + 15) := by
  simp [Sampledata0.mkCustomer, GeneratePure.mkCustomer, Sampledata0.generate_email,
    Sampledata0.generate_phone, Sampledata0.generate_date, GeneratePure.generate_email,
    GeneratePure.generate_phone, GeneratePure.generate_date, hg2, h3, h4, h5, h11,
    chooseD, randintAt, e0, e1, e2, e3, e4, e5, e6, e7, e8, e9, Prod.ext_iff,
    Customer.mk.injEq]

theorem alignC5_at0 (i : ℕ) : alignC5 (10 * i) = 15 * i := by
  unfold alignC5
  have h1 : 10 * i / 10 = i := by omega
  have h2 : 10 * i % 10 = 0 := by omega
  rw [h1, h2]
  simp [alignTau]

theorem customersLoop0_align (g : RNG) (hg : ∀ j, 0 < g j ∧ g j < 1) :
    ∀ n i, (Sampledata0.customersLoop g n i (15 * i)).1 =
      GeneratePure.customersLoop (fun j => g (alignC5 j)) n i (10 * i) := by
  intro n
  induction n with
  | zero => intro i; rfl
  | succ n ih =>
    intro i
    have halign := mkCustomer0_align g (fun j => g (alignC5 j)) i (15 * i) (10 * i)
      (not_lt.mpr (le_of_lt (hg (15 * i + 2)).1)) (hg (15 * i + 3)).1 (hg (15 * i + 4)).1
      (hg (15 * i + 5)).1 (hg (15 * i + 11)).1
      (by show g (alignC5 (10 * i)) = g (15 * i); rw [alignC5_at0 i])
      (by show g (alignC5 (10 * i + 1)) = g (15 * i + 1); rw [alignC5_at i 1 (by norm_num)]; rfl)
      (by show g (alignC5 (10 * i + 2)) = g (15 * i + 6); rw [alignC5_at i 2 (by norm_num)]; rfl)
      (by show g (alignC5 (10 * i + 3)) = g (15 * i + 7); rw [alignC5_at i 3 (by norm_num)]; rfl)
      (by show g (alignC5 (10 * i + 4)) = g (15 * i + 8); rw [alignC5_at i 4 (by norm_num)]; rfl)
      (by show g (alignC5 (10 * i + 5)) = g (15 * i + 9); rw [alignC5_at i 5 (by norm_num)]; rfl)
      (by show g (alignC5 (10 * i + 6)) = g (15 * i + 10); rw [alignC5_at i 6 (by norm_num)]; rfl)
      (by show g (alignC5 (10 * i + 7)) = g (15 * i + 12); rw [alignC5_at i 7 (by norm_num)]; rfl)
      (by show g (alignC5 (10 * i + 8)) = g (15 * i + 13); rw [alignC5_at i 8 (by norm_num)]; rfl)
      (by show g (alignC5 (10 * i + 9)) = g (15 * i + 14); rw [alignC5_at i 9 (by norm_num)]; rfl)
    have hstep : (Sampledata0.customersLoop g (n + 1) i (15 * i)).1 =
        (Sampledata0.mkCustomer g i (15 * i)).1 ::
          (Sampledata0.customersLoop g n (i + 1) (Sampledata0.mkCustomer g i (15 * i)).2).1 :=
      rfl
    rw [hstep, halign]
    show GeneratePure.mkCustomer (fun j => g (alignC5 j)) i (10 * i) ::
        (Sampledata0.customersLoop g n (i + 1) (15 * i + 15)).1 =
      GeneratePure.mkCustomer (fun j => g (alignC5 j)) i (10 * i) ::
        GeneratePure.customersLoop (fun j => g (alignC5 j)) n (i + 1) (10 * i + 10)
    congr 1
    have h15 : 15 * i + 15 = 15 * (i + 1) := by ring
    have h10 : 10 * i + 10 = 10 * (i + 1) := by ring
    rw [h15, h10]
    exact ih (i + 1)

/-- C5 (amended): with every defect-injection probability set to zero, the
defect variant's field generators are extensionally equal to the clean
variant's; its customer generator produces the identical record collection
once the stream is reindexed along the explicit draw alignment `alignC5`
(the zero-probability variant still consumes its branch-check draws, so, on
one shared stream, the raw collections differ — see the counterexample);
and the two entry points differ in output directory name. -/
theorem C5_variant_equivalence_amended (g : RNG) (hg : ∀ j, 0 < g j ∧ g j < 1) (count : ℤ) :
    (∀ (g₂ : RNG) (fn ln : String) (k : ℕ),
      Sampledata0.generate_email g₂ fn ln false k = (GeneratePure.generate_email g₂ fn ln k, k + 1)) ∧
    (∀ (g₂ : RNG) (k : ℕ),
      Sampledata0.generate_phone g₂ false k = (GeneratePure.generate_phone g₂ k, k + 3)) ∧
    (∀ (g₂ : RNG) (base_date days_range : ℤ) (k : ℕ),
      Sampledata0.generate_date g₂ base_date days_range false k =
        (GeneratePure.generate_date g₂ base_date days_range k, k + 1)) ∧
    (Sampledata0.generate_customers g count 0).1 =
      GeneratePure.generate_customers (fun j => g (alignC5 j)) count 0 ∧
    Sampledata.OUTPUT_DIR = "sample_data" ∧ GeneratePure.OUTPUT_DIR = "pure_sample_data" := by
  refine ⟨fun g₂ fn ln k => rfl, fun g₂ k => rfl, fun g₂ b r k => rfl, ?_, rfl, rfl⟩
  have := customersLoop0_align g hg count.toNat 0
  simpa using this

/-- Witness for the amended C5 at a concrete instantiation. -/
theorem C5_variant_equivalence_amended_witness :
    (∀ j, 0 < gHalf j ∧ gHalf j < 1) ∧
    ((∀ (g₂ : RNG) (fn ln : String) (k : ℕ),
      Sampledata0.generate_email g₂ fn ln false k = (GeneratePure.generate_email g₂ fn ln k, k + 1)) ∧
    (∀ (g₂ : RNG) (k : ℕ),
      Sampledata0.generate_phone g₂ false k = (GeneratePure.generate_phone g₂ k, k + 3)) ∧
    (∀ (g₂ : RNG) (base_date days_range : ℤ) (k : ℕ),
      Sampledata0.generate_date g₂ base_date days_range false k =
        (GeneratePure.generate_date g₂ base_date days_range k, k + 1)) ∧
    (Sampledata0.generate_customers gHalf 2 0).1 =
      GeneratePure.generate_customers (fun j => gHalf (alignC5 j)) 2 0 ∧
    Sampledata.OUTPUT_DIR = "sample_data" ∧ GeneratePure.OUTPUT_DIR = "pure_sample_data") :=
  ⟨fun j => by constructor <;> norm_num [gHalf, constStream],
    C5_variant_equivalence_amended gHalf
      (fun j => by constructor <;> norm_num [gHalf, constStream]) 2⟩

theorem gRamp_WF : WFRNG gRamp := by
  intro j
  unfold gRamp
  constructor
  · positivity
  · rw [div_lt_one (by norm_num)]
    exact_mod_cast Nat.mod_lt j (by norm_num)

/-- Counterexample to C5 as stated: on one shared draw stream the
zero-probability defect variant and the clean variant produce different
customer collections, because the zero-probability variant still consumes
draws for its (never-taken) defect checks. -/
theorem C5_counterexample :
    WFRNG gRamp ∧
    (Sampledata0.generate_customers gRamp 1 0).1 ≠ GeneratePure.generate_customers gRamp 1 0 := by
  refine ⟨gRamp_WF, ?_⟩
  decide

/-! ### Suppressed account ids propagate to child records (C10) -/

/-- C10: there is an outcome of the random source under which the defect
variant generates an account whose `account_id` was suppressed to the empty
string, and `generate_transactions` and `generate_daily_balances` copy that
empty `account_id` into child records — unresolvable children outside the
documented 5% orphan injection. -/
theorem C10_suppressed_account_id :
    (∃ a ∈ Sampledata.generate_accounts gZero [defCustomer] (3 / 2) 0, a.account_id = "") ∧
    (∃ t ∈ Sampledata.generate_transactions gZero
        (Sampledata.generate_accounts gZero [defCustomer] (3 / 2) 0) 1 0,
      t.account_id = "") ∧
    (∃ b ∈ Sampledata.generate_daily_balances gZero
        (Sampledata.generate_accounts gZero [defCustomer] (3 / 2) 0) 1 0,
      b.account_id = "") := by
  refine ⟨?_, ?_, ?_⟩ <;> decide

/-! ### Pure-variant integrity (C1) -/

theorem pure_mkCustomer_ok (g : RNG) (hg : WFRNG g) (i k : ℕ) :
    PureCustomerOK (GeneratePure.mkCustomer g i k) := by
  have hT : TODAY = 20475 := by decide
  have hE : EPOCH1970 = 0 := by decide
  obtain ⟨ha1, ha2⟩ := randintAt_bounds g (k + 3) 200 999 hg (by norm_num)
  obtain ⟨hb1, hb2⟩ := randintAt_bounds g (k + 4) 200 999 hg (by norm_num)
  obtain ⟨hc1, hc2⟩ := randintAt_bounds g (k + 5) 1000 9999 hg (by norm_num)
  obtain ⟨hd1, hd2⟩ := randintAt_bounds g (k + 6) (-(365 * 40)) (365 * 40) hg (by norm_num)
  obtain ⟨he1, he2⟩ := randintAt_bounds g (k + 9) (-365) 365 hg (by norm_num)
  refine ⟨⟨i + 1, rfl⟩, chooseD_mem g k _ "" hg (by decide),
    chooseD_mem g (k + 1) _ "" hg (by decide),
    ⟨chooseD g k FIRST_NAMES "", chooseD_mem g k _ "" hg (by decide),
      chooseD g (k + 1) LAST_NAMES "", chooseD_mem g (k + 1) _ "" hg (by decide),
      chooseD g (k + 2) EMAIL_DOMAINS "", chooseD_mem g (k + 2) _ "" hg (by decide), rfl⟩,
    phoneShape_render _ _ _ ha1 ha2 hb1 hb2 hc1 hc2,
    renderDate_valid _ (by omega) (by omega),
    chooseD_mem g (k + 7) _ "" hg (by decide),
    chooseD_mem g (k + 8) _ "" hg (by decide),
    renderDate_valid _ (by omega) (by omega),
    (by decide : isValidDateStr (renderDate TODAY) = true)⟩

theorem pure_customersLoop_ok (g : RNG) (hg : WFRNG g) :
    ∀ n i k, ∀ c ∈ GeneratePure.customersLoop g n i k, PureCustomerOK c := by
  intro n
  induction n with
  | zero => intro i k c hc; simp [GeneratePure.customersLoop] at hc
  | succ n ih =>
    intro i k c hc
    rcases List.mem_cons.mp hc with h | h
    · rw [h]; exact pure_mkCustomer_ok g hg i k
    · exact ih (i + 1) (k + 10) c h

theorem pure_mkAccount_ok (g : RNG) (hg : WFRNG g) (customers : List Customer)
    (hc : customers ≠ []) (i k : ℕ) :
    PureAccountOK customers (GeneratePure.mkAccount g customers i k) := by
  have hT : TODAY = 20475 := by decide
  obtain ⟨h1, h2⟩ := randintAt_bounds g (k + 5) (-730) 730 hg (by norm_num)
  obtain ⟨h3, h4⟩ := randintAt_bounds g (k + 6) (-30) 30 hg (by norm_num)
  exact ⟨⟨chooseD g k customers defCustomer, chooseD_mem g k customers defCustomer hg hc, rfl⟩,
    ⟨i + 1, rfl⟩, chooseD_mem g (k + 1) _ "" hg (by decide),
    fixedShape_renderFixed 2 (by norm_num) _,
    chooseD_mem g (k + 3) _ "" hg (by decide), chooseD_mem g (k + 4) _ "" hg (by decide),
    renderDate_valid _ (by omega) (by omega), renderDate_valid _ (by omega) (by omega)⟩

theorem pure_accountsLoop_ok (g : RNG) (hg : WFRNG g) (customers : List Customer)
    (hc : customers ≠ []) :
    ∀ n i k, ∀ a ∈ GeneratePure.accountsLoop g customers n i k, PureAccountOK customers a := by
  intro n
  induction n with
  | zero => intro i k a ha; simp [GeneratePure.accountsLoop] at ha
  | succ n ih =>
    intro i k a ha
    rcases List.mem_cons.mp ha with h | h
    · rw [h]; exact pure_mkAccount_ok g hg customers hc i k
    · exact ih (i + 1) (k + 7) a h

theorem pure_mkTransaction_ok (g : RNG) (hg : WFRNG g) (accounts : List Account)
    (ha : accounts ≠ []) (hcur : ∀ a ∈ accounts, a.currency ∈ CURRENCIES) (i k : ℕ) :
    PureTransactionOK accounts (GeneratePure.mkTransaction g accounts i k) := by
  have hT : TODAY = 20475 := by decide
  obtain ⟨h1, h2⟩ := randintAt_bounds g (k + 3) (-90) 90 hg (by norm_num)
  exact ⟨⟨chooseD g k accounts defAccount, chooseD_mem g k accounts defAccount hg ha, rfl, rfl⟩,
    ⟨i + 1, rfl⟩, chooseD_mem g (k + 1) _ "" hg (by decide),
    fixedShape_renderFixed 2 (by norm_num) _,
    hcur _ (chooseD_mem g k accounts defAccount hg ha),
    renderDate_valid _ (by omega) (by omega),
    ⟨chooseD g (k + 4) TRANSACTION_TYPES "", chooseD_mem g (k + 4) _ "" hg (by decide),
      chooseD g (k + 5) TXN_CHANNELS "", chooseD_mem g (k + 5) _ "" hg (by decide), rfl⟩,
    chooseD_mem g (k + 6) _ "" hg (by decide)⟩

theorem pure_transactionsLoop_ok (g : RNG) (hg : WFRNG g) (accounts : List Account)
    (ha : accounts ≠ []) (hcur : ∀ a ∈ accounts, a.currency ∈ CURRENCIES) :
    ∀ n i k, ∀ t ∈ GeneratePure.transactionsLoop g accounts n i k,
      PureTransactionOK accounts t := by
  intro n
  induction n with
  | zero => intro i k t ht; simp [GeneratePure.transactionsLoop] at ht
  | succ n ih =>
    intro i k t ht
    rcases List.mem_cons.mp ht with h | h
    · rw [h]; exact pure_mkTransaction_ok g hg accounts ha hcur i k
    · exact ih (i + 1) (k + 7) t h

theorem balancesDays_ok (g : RNG) (aid cur : String) :
    ∀ (dl : ℕ) (b : ℚ) (day n k : ℕ), (day : ℤ) + dl ≤ 300000 →
      ∀ rec ∈ balancesDays g aid cur dl b day n k,
        rec.account_id = aid ∧ rec.currency = cur ∧
        (∃ j : ℕ, rec.balance_id = "BAL" ++ zfill 10 (natRepr j)) ∧
        isValidDateStr rec.balance_date = true ∧
        fixedShape 2 rec.opening_balance = true ∧ fixedShape 2 rec.closing_balance = true := by
  intro dl
  induction dl with
  | zero => intro b day n k hday rec hrec; simp [balancesDays] at hrec
  | succ dl ih =>
    intro b day n k hday rec hrec
    have hT : TODAY = 20475 := by decide
    rcases List.mem_cons.mp hrec with h | h
    · rw [h]
      exact ⟨rfl, rfl, ⟨n + 1, rfl⟩,
        renderDate_valid _ (by push_cast at hday ⊢; omega) (by push_cast at hday ⊢; omega),
        fixedShape_renderFixed 2 (by norm_num) _, fixedShape_renderFixed 2 (by norm_num) _⟩
    · exact ih (b + uniformAt g k (-1000) 1000) (day + 1) (n + 1) (k + 1)
        (by push_cast at hday ⊢; omega) rec h

theorem balancesLoop_ok (g : RNG) :
    ∀ (accounts : List Account) (days n k : ℕ), (days : ℤ) ≤ 300000 →
      (∀ a ∈ accounts, a.currency ∈ CURRENCIES) →
      ∀ rec ∈ balancesLoop g accounts days n k, PureBalanceOK accounts rec := by
  intro accounts
  induction accounts with
  | nil => intro days n k hdays hcur rec hrec; simp [balancesLoop] at hrec
  | cons a rest ih =>
    intro days n k hdays hcur rec hrec
    rcases List.mem_append.mp hrec with h | h
    · obtain ⟨f1, f2, f3, f4, f5, f6⟩ :=
        balancesDays_ok g a.account_id a.currency days (parseDec a.balance) 0 n k
          (by push_cast; omega) rec h
      exact ⟨⟨a, List.mem_cons_self a rest, f1, f2⟩, f3, f4, f5, f6,
        f2 ▸ hcur a (List.mem_cons_self a rest)⟩
    · obtain ⟨⟨a', ha', hl1, hl2⟩, f3, f4, f5, f6, f7⟩ :=
        ih days (n + days) (k + days) hdays (fun x hx => hcur x (List.mem_cons_of_mem a hx))
          rec h
      exact ⟨⟨a', List.mem_cons_of_mem a ha', hl1, hl2⟩, f3, f4, f5, f6, f7⟩

theorem pure_fxDayLoop_ok (g : RNG) (hg : WFRNG g) :
    ∀ (pairs : List (String × ℚ)) (day n k : ℕ),
      (∀ p ∈ pairs, p ∈ BASE_RATES) → (day : ℤ) ≤ 300000 →
      ∀ r ∈ GeneratePure.fxDayLoop g pairs day n k, PureFxOK r := by
  intro pairs
  induction pairs with
  | nil => intro day n k hsub hday r hr; simp [GeneratePure.fxDayLoop] at hr
  | cons p rest ih =>
    intro day n k hsub hday r hr
    obtain ⟨c, b⟩ := p
    have hT : TODAY = 20475 := by decide
    rcases List.mem_cons.mp hr with h | h
    · rw [h]
      exact ⟨⟨n + 1, rfl⟩, rfl, ⟨(c, b), hsub (c, b) (List.mem_cons_self _ _), rfl⟩,
        fixedShape_renderFixed 6 (by norm_num) _,
        renderDate_valid _ (by omega) (by omega),
        chooseD_mem g (k + 1) _ "" hg (by decide)⟩
    · exact ih day (n + 1) (k + 2) (fun x hx => hsub x (List.mem_cons_of_mem _ hx)) hday r h

theorem pure_fxLoop_ok (g : RNG) (hg : WFRNG g) :
    ∀ (dl : ℕ) (day n k : ℕ), (day : ℤ) + dl ≤ 300000 →
      ∀ r ∈ GeneratePure.fxLoop g dl day n k, PureFxOK r := by
  intro dl
  induction dl with
  | zero => intro day n k hday r hr; simp [GeneratePure.fxLoop] at hr
  | succ dl ih =>
    intro day n k hday r hr
    rcases List.mem_append.mp hr with h | h
    · exact pure_fxDayLoop_ok g hg BASE_RATES day n k (fun p hp => hp)
        (by push_cast at hday ⊢; omega) r h
    · exact ih (day + 1) (n + 7) (k + 14) (by push_cast at hday ⊢; omega) r h

/-- C1: in the pure/clean variant, every account's `customer_id` resolves to
a record of the supplied customer collection, every transaction's and every
daily-balance record's `account_id` (and currency) to a record of the
supplied account collection, and every field of every generated record
conforms to its declared format (dates `YYYY-MM-DD`, email
`first.last@domain` with a pool domain, phone `+1-NNN-NNN-NNNN`,
balances/amounts as fixed-point decimal strings, enum fields drawn from
their pools).  The day windows are bounded by 300000 days, the range
representable by `datetime`'s year limit in this program. -/
theorem C1_pure_integrity (g : RNG) (hg : WFRNG g) (count : ℤ) (k : ℕ) :
    (∀ c ∈ GeneratePure.generate_customers g count k, PureCustomerOK c) ∧
    (∀ (customers : List Customer), customers ≠ [] →
      ∀ (avg_accounts_per_customer : ℚ) (k₂ : ℕ),
      ∀ a ∈ GeneratePure.generate_accounts g customers avg_accounts_per_customer k₂,
        PureAccountOK customers a) ∧
    (∀ (accounts : List Account), accounts ≠ [] →
      (∀ a ∈ accounts, a.currency ∈ CURRENCIES) →
      ∀ (transactions_per_account : ℤ) (k₂ : ℕ),
      ∀ t ∈ GeneratePure.generate_transactions g accounts transactions_per_account k₂,
        PureTransactionOK accounts t) ∧
    (∀ (accounts : List Account), (∀ a ∈ accounts, a.currency ∈ CURRENCIES) →
      ∀ (days : ℤ), days ≤ 300000 → ∀ (k₂ : ℕ),
      ∀ b ∈ GeneratePure.generate_daily_balances g accounts days k₂,
        PureBalanceOK accounts b) ∧
    (∀ (days : ℤ), days ≤ 300000 → ∀ (k₂ : ℕ),
      ∀ r ∈ GeneratePure.generate_fx_rates g days k₂, PureFxOK r) := by
  refine ⟨?_, ?_, ?_, ?_, ?_⟩
  · intro c hc
    exact pure_customersLoop_ok g hg count.toNat 0 k c hc
  · intro customers hne avg k₂ a ha
    exact pure_accountsLoop_ok g hg customers hne _ 0 k₂ a ha
  · intro accounts hne hcur tpa k₂ t ht
    exact pure_transactionsLoop_ok g hg accounts hne hcur _ 0 k₂ t ht
  · intro accounts hcur days hdays k₂ b hb
    exact balancesLoop_ok g accounts days.toNat 0 k₂ (by omega) hcur b hb
  · intro days hdays k₂ r hr
    exact pure_fxLoop_ok g hg days.toNat 0 0 k₂ (by omega) r hr

/-- Witness for C1 at a concrete instantiation. -/
theorem C1_pure_integrity_witness :
    WFRNG gHalf ∧
    ((∀ c ∈ GeneratePure.generate_customers gHalf 1 0, PureCustomerOK c) ∧
    (∀ (customers : List Customer), customers ≠ [] →
      ∀ (avg_accounts_per_customer : ℚ) (k₂ : ℕ),
      ∀ a ∈ GeneratePure.generate_accounts gHalf customers avg_accounts_per_customer k₂,
        PureAccountOK customers a) ∧
    (∀ (accounts : List Account), accounts ≠ [] →
      (∀ a ∈ accounts, a.currency ∈ CURRENCIES) →
      ∀ (transactions_per_account : ℤ) (k₂ : ℕ),
      ∀ t ∈ GeneratePure.generate_transactions gHalf accounts transactions_per_account k₂,
        PureTransactionOK accounts t) ∧
    (∀ (accounts : List Account), (∀ a ∈ accounts, a.currency ∈ CURRENCIES) →
      ∀ (days : ℤ), days ≤ 300000 → ∀ (k₂ : ℕ),
      ∀ b ∈ GeneratePure.generate_daily_balances gHalf accounts days k₂,
        PureBalanceOK accounts b) ∧
    (∀ (days : ℤ), days ≤ 300000 → ∀ (k₂ : ℕ),
      ∀ r ∈ GeneratePure.generate_fx_rates gHalf days k₂, PureFxOK r)) :=
  ⟨gHalf_WF, C1_pure_integrity gHalf gHalf_WF 1 0⟩
